import Mathlib

/-!
Formal model of the ARDF binary reader in magic_afm/data_readers.py.

The memory-mapped file is modeled as a list of byte values (a List Nat
whose elements are smaller than 256 in a well-formed file).  Reads past
the end of the buffer yield 0; the theorems below are about in-bounds
accesses.  struct.unpack_from fields are decoded with explicit
little-endian arithmetic.  numpy float32 sample arrays are modeled by
the raw 32-bit words stored in the file; the multiplication by
NANOMETER_UNIT_CONVERSION performed in get_ndarray is modeled by an
arbitrary word transformation conv over which the theorems quantify
(the equalities under verification do not depend on the semantics of
the float multiply, only on it being applied identically).
-/

set_option maxRecDepth 100000
set_option maxHeartbeats 2000000

namespace MagicAFM

/-- Byte buffers: the mmap contents as a list of byte values. -/
abbrev Bytes := List Nat

/-- Read one byte, 0 beyond the end of the buffer. -/
def byteAt (d : Bytes) (i : Nat) : Nat := d.getD i 0

/-- Little-endian u32 at offset o, as read by struct.unpack_from with format L. -/
def readU32 (d : Bytes) (o : Nat) : Nat :=
  byteAt d o + 256 * byteAt d (o + 1) + 65536 * byteAt d (o + 2) +
    16777216 * byteAt d (o + 3)

/-- Little-endian u64 at offset o, as read by struct.unpack_from with format Q. -/
def readU64 (d : Bytes) (o : Nat) : Nat :=
  readU32 d o + 4294967296 * readU32 d (o + 4)

/-- Fixed-width byte field (struct format 4s, 24s, 32s and friends). -/
def readBytes (d : Bytes) (o n : Nat) : Bytes := (d.drop o).take n

/-- Python slice d[a:b] with clamping semantics (for nonnegative a, b). -/
def pyslice (d : Bytes) (a b : Nat) : Bytes := (d.take b).drop a

/-! ## CRC-32

zlib.crc32: reflected CRC-32 with polynomial 0x04C11DB7 (reflected
constant 0xEDB88320), initial value 0xFFFFFFFF and final xor
0xFFFFFFFF, computed bit by bit. -/

/-- Reflected CRC-32 polynomial constant. -/
def CRCPOLY : Nat := 0xEDB88320

/-- One bit step of the reflected CRC-32 register update. -/
def crcBit (s : Nat) : Nat := if s % 2 = 1 then (s / 2) ^^^ CRCPOLY else s / 2

/-- One byte step: xor the byte into the register, then eight bit steps. -/
def crcByte (s b : Nat) : Nat := crcBit^[8] (s ^^^ b)

/-- Case split on a Nat constructor and continue: semantically the plain
application f n, but the match keeps n in normal form during concrete
evaluation. -/
def natCase {α : Type} (f : Nat → α) : Nat → α
  | 0 => f 0
  | m + 1 => f (m + 1)

theorem natCase_eq {α : Type} (f : Nat → α) (n : Nat) : natCase f n = f n := by
  cases n <;> rfl

/-- Run the CRC register over a byte list (a left fold of crcByte; the
accumulator goes through natCase so that evaluation stays strict). -/
def crcUpdate : Nat → Bytes → Nat
  | s, [] => s
  | s, b :: rest => natCase (fun s2 => crcUpdate s2 rest) (crcByte s b)

theorem crcUpdate_nil (s : Nat) : crcUpdate s [] = s := rfl

theorem crcUpdate_cons (s b : Nat) (l : Bytes) :
    crcUpdate s (b :: l) = crcUpdate (crcByte s b) l := by
  rw [crcUpdate, natCase_eq]

/-- zlib.crc32 of a byte list. -/
def crc32 (l : Bytes) : Nat := crcUpdate 0xFFFFFFFF l ^^^ 0xFFFFFFFF

theorem two_pow_32_eq : (2 : Nat) ^ 32 = 4294967296 := by norm_num

theorem crcBit_lt {s : Nat} (hs : s < 2 ^ 32) : crcBit s < 2 ^ 32 := by
  unfold crcBit
  split
  · exact Nat.xor_lt_two_pow (by omega) (by rw [two_pow_32_eq]; norm_num [CRCPOLY])
  · omega

theorem xor_right_cancel {a b c : Nat} (h : a ^^^ c = b ^^^ c) : a = b := by
  have := congrArg (fun x => x ^^^ c) h
  simpa [Nat.xor_assoc] using this

theorem testBit31_of_lt {x : Nat} (h : x < 2 ^ 31) : x.testBit 31 = false := by
  have h3 : x < 2147483648 := by omega
  simp only [Nat.testBit, Nat.shiftRight_eq_div_pow]
  norm_num
  omega

theorem crcBit_inj {s t : Nat} (hs : s < 2 ^ 32) (ht : t < 2 ^ 32)
    (h : crcBit s = crcBit t) : s = t := by
  have hs2 : s / 2 < 2 ^ 31 := by
    rw [two_pow_32_eq] at hs; norm_num; omega
  have ht2 : t / 2 < 2 ^ 31 := by
    rw [two_pow_32_eq] at ht; norm_num; omega
  have hP : CRCPOLY.testBit 31 = true := by decide
  unfold crcBit at h
  by_cases h1 : s % 2 = 1 <;> by_cases h2 : t % 2 = 1
  · rw [if_pos h1, if_pos h2] at h
    have : s / 2 = t / 2 := xor_right_cancel h
    omega
  · rw [if_pos h1, if_neg h2] at h
    have hbit := congrArg (fun x => Nat.testBit x 31) h
    simp only [Nat.testBit_xor, testBit31_of_lt hs2, testBit31_of_lt ht2, hP] at hbit
    simp at hbit
  · rw [if_neg h1, if_pos h2] at h
    have hbit := congrArg (fun x => Nat.testBit x 31) h
    simp only [Nat.testBit_xor, testBit31_of_lt hs2, testBit31_of_lt ht2, hP] at hbit
    simp at hbit
  · rw [if_neg h1, if_neg h2] at h
    omega

theorem crcBitIter_lt {s : Nat} (n : Nat) (hs : s < 2 ^ 32) :
    crcBit^[n] s < 2 ^ 32 := by
  induction n generalizing s with
  | zero => simpa using hs
  | succ k ih =>
      rw [Function.iterate_succ_apply]
      exact ih (crcBit_lt hs)

theorem crcBitIter_inj {s t : Nat} (n : Nat) (hs : s < 2 ^ 32) (ht : t < 2 ^ 32)
    (h : crcBit^[n] s = crcBit^[n] t) : s = t := by
  induction n generalizing s t with
  | zero => simpa using h
  | succ k ih =>
      rw [Function.iterate_succ_apply, Function.iterate_succ_apply] at h
      exact crcBit_inj hs ht (ih (crcBit_lt hs) (crcBit_lt ht) h)

theorem crcByte_lt {s b : Nat} (hs : s < 2 ^ 32) (hb : b < 2 ^ 32) :
    crcByte s b < 2 ^ 32 :=
  crcBitIter_lt 8 (Nat.xor_lt_two_pow hs hb)

theorem crcByte_inj_state {s t b : Nat} (hs : s < 2 ^ 32) (ht : t < 2 ^ 32)
    (hb : b < 2 ^ 32) (h : crcByte s b = crcByte t b) : s = t :=
  xor_right_cancel
    (crcBitIter_inj 8 (Nat.xor_lt_two_pow hs hb) (Nat.xor_lt_two_pow ht hb) h)

theorem crcByte_inj_byte {s b c : Nat} (hs : s < 2 ^ 32) (hb : b < 2 ^ 32)
    (hc : c < 2 ^ 32) (hbc : b ≠ c) : crcByte s b ≠ crcByte s c := by
  intro h
  have := crcBitIter_inj 8 (Nat.xor_lt_two_pow hs hb) (Nat.xor_lt_two_pow hs hc) h
  exact hbc (by
    have h2 := congrArg (fun x => s ^^^ x) (by
      have : s ^^^ b = s ^^^ c := this
      exact this)
    simpa [← Nat.xor_assoc, Nat.xor_self, Nat.zero_xor] using h2)

theorem crcUpdate_lt {s : Nat} {l : Bytes} (hs : s < 2 ^ 32)
    (hl : ∀ b ∈ l, b < 2 ^ 32) : crcUpdate s l < 2 ^ 32 := by
  induction l generalizing s with
  | nil => simpa [crcUpdate_nil] using hs
  | cons b rest ih =>
      have hb : b < 2 ^ 32 := hl b (by simp)
      rw [crcUpdate_cons]
      exact ih (crcByte_lt hs hb) (fun x hx => hl x (by simp [hx]))

theorem crcUpdate_inj {s t : Nat} {l : Bytes} (hs : s < 2 ^ 32) (ht : t < 2 ^ 32)
    (hl : ∀ b ∈ l, b < 2 ^ 32) (h : crcUpdate s l = crcUpdate t l) : s = t := by
  induction l generalizing s t with
  | nil => simpa [crcUpdate_nil] using h
  | cons b rest ih =>
      have hb : b < 2 ^ 32 := hl b (by simp)
      rw [crcUpdate_cons, crcUpdate_cons] at h
      exact crcByte_inj_state hs ht hb
        (ih (crcByte_lt hs hb) (crcByte_lt ht hb) (fun x hx => hl x (by simp [hx])) h)

theorem crcUpdate_set_ne {y : Nat} : ∀ (l : Bytes) (k s : Nat), s < 2 ^ 32 →
    (∀ b ∈ l, b < 2 ^ 32) → y < 2 ^ 32 → k < l.length → y ≠ l.getD k 0 →
    crcUpdate s (l.set k y) ≠ crcUpdate s l
  | [], k, s, _, _, _, hk, _ => by simp at hk
  | b :: rest, 0, s, hs, hl, hy, _, hne => by
      simp only [List.set_cons_zero, crcUpdate_cons]
      intro h
      have hb : b < 2 ^ 32 := hl b (by simp)
      have hst := crcUpdate_inj (crcByte_lt hs hy) (crcByte_lt hs hb)
        (fun x hx => hl x (by simp [hx])) h
      exact crcByte_inj_byte hs hy hb (by simpa using hne) hst
  | b :: rest, k + 1, s, hs, hl, hy, hk, hne => by
      simp only [List.set_cons_succ, crcUpdate_cons]
      exact crcUpdate_set_ne rest k (crcByte s b)
        (crcByte_lt hs (hl b (by simp))) (fun x hx => hl x (by simp [hx])) hy
        (by simpa using hk) (by simpa using hne)

/-- Changing a single byte of the input changes the CRC-32. -/
theorem crc32_set_ne {y : Nat} (l : Bytes) (k : Nat)
    (hl : ∀ b ∈ l, b < 2 ^ 32) (hy : y < 2 ^ 32) (hk : k < l.length)
    (hne : y ≠ l.getD k 0) : crc32 (l.set k y) ≠ crc32 l := by
  intro h
  exact crcUpdate_set_ne l k 0xFFFFFFFF (by rw [two_pow_32_eq]; norm_num)
    hl hy hk hne (xor_right_cancel h)

/-! ## Buffer access lemmas. -/

theorem byteAt_drop (d : Bytes) (a k : Nat) :
    byteAt (d.drop a) k = byteAt d (a + k) := by
  induction a generalizing d with
  | zero => simp [byteAt]
  | succ n ih =>
      cases d with
      | nil => simp [byteAt]
      | cons b rest =>
          have : n + 1 + k = (n + k) + 1 := by omega
          simp only [List.drop_succ_cons, this, byteAt, List.getD_cons_succ]
          exact ih rest

theorem byteAt_take (d : Bytes) {b k : Nat} (h : k < b) :
    byteAt (d.take b) k = byteAt d k := by
  induction d generalizing b k with
  | nil => simp [byteAt]
  | cons x rest ih =>
      cases b with
      | zero => omega
      | succ m =>
          cases k with
          | zero => simp [byteAt]
          | succ j =>
              simp only [List.take_succ_cons, byteAt, List.getD_cons_succ]
              exact ih (by omega)

theorem byteAt_pyslice (d : Bytes) {a b k : Nat} (h : a + k < b) :
    byteAt (pyslice d a b) k = byteAt d (a + k) := by
  rw [pyslice, byteAt_drop, byteAt_take d h]

theorem length_pyslice (d : Bytes) (a b : Nat) :
    (pyslice d a b).length = min b d.length - a := by
  simp [pyslice]

theorem mem_pyslice {x : Nat} {d : Bytes} {a b : Nat} (h : x ∈ pyslice d a b) :
    x ∈ d :=
  List.mem_of_mem_take (List.mem_of_mem_drop h)

theorem pyslice_set {d : Bytes} {p y a b : Nat} (h1 : a ≤ p) (_h2 : p < b) :
    pyslice (d.set p y) a b = (pyslice d a b).set (p - a) y := by
  unfold pyslice
  rw [List.set_take, List.drop_set, if_neg (by omega)]

/-! ## Chunk header (ARDFHeader) and error kinds.

ARDFError models the exceptions raised by data_readers.py: ValueError
for malformed chunks (carrying the offending header) and checksum
mismatches, AssertionError for failed asserts, KeyError for dict
lookups, NameError and UnboundLocalError for use of an unbound loop
variable, RuntimeError, and numpy broadcast errors; fuelOut is a model
artifact marking exhausted traversal fuel (a diverging Python loop). -/

structure ARDFHeader where
  data : Bytes
  offset : Nat
  crc : Nat
  size : Nat
  name : Bytes
  flags : Nat
deriving DecidableEq

inductive ARDFError where
  | checksumMismatch (header : ARDFHeader)
  | malformed (msg : String) (header : ARDFHeader)
  | assertFail (msg : String)
  | invalidIndex (shape : Nat × Nat) (idx : Nat × Nat)
  | keyError (key : Nat × Nat × Nat)
  | chanKeyError (cname : Bytes)
  | unboundLocal
  | runtimeError (msg : String)
  | broadcastError
  | indexError
  | fuelOut
deriving DecidableEq

/-- Decode the fixed 16-byte little-endian chunk header: crc u32, size u32,
name 4 bytes, flags u32 (struct format LL4sL), keeping a reference to the
underlying buffer like the Python class does. -/
def ARDFHeader.unpack (data : Bytes) (offset : Nat) : ARDFHeader :=
  { data := data, offset := offset, crc := readU32 data offset,
    size := readU32 data (offset + 4), name := readBytes data (offset + 8) 4,
    flags := readU32 data (offset + 12) }

theorem unpack_data (d : Bytes) (o : Nat) : (ARDFHeader.unpack d o).data = d := rfl

theorem unpack_offset (d : Bytes) (o : Nat) : (ARDFHeader.unpack d o).offset = o := rfl

theorem unpack_crc (d : Bytes) (o : Nat) : (ARDFHeader.unpack d o).crc = readU32 d o := rfl

theorem unpack_size (d : Bytes) (o : Nat) : (ARDFHeader.unpack d o).size = readU32 d (o + 4) := rfl

theorem unpack_name (d : Bytes) (o : Nat) : (ARDFHeader.unpack d o).name = readBytes d (o + 8) 4 := rfl

/-- Recompute zlib.crc32 over data[offset+4 : offset+size] and raise the
ValueError carrying the header when it disagrees with the stored checksum;
return True otherwise. -/
def ARDFHeader.validate (h : ARDFHeader) : Except ARDFError Bool :=
  if h.crc ≠ crc32 (pyslice h.data (h.offset + 4) (h.offset + h.size)) then
    .error (.checksumMismatch h)
  else
    .ok true

/-- C3: for every chunk header, validate succeeds iff the stored checksum
equals the CRC-32 (polynomial 0x04C11DB7 reflected in and out, initial value
and final xor 0xFFFFFFFF, i.e. zlib.crc32) of the byte range
[offset+4, offset+size); on disagreement it fails with the ChecksumMismatch
error carrying the header; and mutating any byte of that range underneath a
header that validated (the live header object keeps its decoded fields, as in
Python, where validate re-reads only the mmap bytes) flips the result to
failure. -/
theorem validate_checksum_spec :
    (∀ h : ARDFHeader,
        h.validate = .ok true ↔
          h.crc = crc32 (pyslice h.data (h.offset + 4) (h.offset + h.size))) ∧
    (∀ h : ARDFHeader,
        h.crc ≠ crc32 (pyslice h.data (h.offset + 4) (h.offset + h.size)) →
          h.validate = .error (.checksumMismatch h)) ∧
    (∀ (h : ARDFHeader) (p y : Nat),
        h.validate = .ok true →
        h.offset + 4 ≤ p → p < h.offset + h.size → p < h.data.length →
        (∀ b ∈ h.data, b < 256) → y < 256 → y ≠ byteAt h.data p →
        ARDFHeader.validate { h with data := h.data.set p y } =
          .error (.checksumMismatch { h with data := h.data.set p y })) := by
  refine ⟨?_, ?_, ?_⟩
  · intro h
    unfold ARDFHeader.validate
    split
    · simp only [reduceCtorEq, false_iff]
      assumption
    · simp only [true_iff]
      omega
  · intro h hne
    unfold ARDFHeader.validate
    rw [if_pos hne]
  · intro h p y hok h1 h2 h3 hbytes hy hne
    have hcrc : h.crc = crc32 (pyslice h.data (h.offset + 4) (h.offset + h.size)) := by
      unfold ARDFHeader.validate at hok
      split at hok
      · exact absurd hok (by simp)
      · omega
    unfold ARDFHeader.validate
    rw [if_pos]
    simp only
    rw [pyslice_set h1 h2, hcrc]
    have hk : p - (h.offset + 4) < (pyslice h.data (h.offset + 4) (h.offset + h.size)).length := by
      rw [length_pyslice]; omega
    have hgd : (pyslice h.data (h.offset + 4) (h.offset + h.size)).getD (p - (h.offset + 4)) 0 =
        byteAt h.data p := by
      have := byteAt_pyslice h.data (a := h.offset + 4) (b := h.offset + h.size)
        (k := p - (h.offset + 4)) (by omega)
      simpa [byteAt, Nat.add_sub_cancel' h1] using this
    refine Ne.symm (@crc32_set_ne y _ _ (fun b hb => ?_) (by rw [two_pow_32_eq]; omega) hk ?_)
    · have : b < 256 := hbytes b (mem_pyslice hb)
      rw [two_pow_32_eq]; omega
    · rw [hgd]; exact hne

/-! ## Chunk name tags (4-byte ASCII). -/

def IMAGtag : Bytes := [73, 77, 65, 71]
def VOLMtag : Bytes := [86, 79, 76, 77]
def NEXTtag : Bytes := [78, 69, 88, 84]
def THMBtag : Bytes := [84, 72, 77, 66]
def NSETtag : Bytes := [78, 83, 69, 84]
def TTOCtag : Bytes := [84, 84, 79, 67]
def TOFFtag : Bytes := [84, 79, 70, 70]
def VTOCtag : Bytes := [86, 84, 79, 67]
def VOFFtag : Bytes := [86, 79, 70, 70]
def VCHNtag : Bytes := [86, 67, 72, 78]
def XDEFtag : Bytes := [88, 68, 69, 70]
def VDEFtag : Bytes := [86, 68, 69, 70]
def MLOVtag : Bytes := [77, 76, 79, 86]
def VSETtag : Bytes := [86, 83, 69, 84]
def VNAMtag : Bytes := [86, 78, 65, 77]
def VDATtag : Bytes := [86, 68, 65, 84]

/-! ## Table-of-contents family. -/

structure ARDFTableOfContents where
  data : Bytes
  offset : Nat
  size : Nat
  entries : List (ARDFHeader × Nat)
deriving DecidableEq

/-- Entry loop of ARDFTableOfContents.unpack: decode records of struct
format LL4sLQ at successive 24-byte strides; a null pointer terminates the
scan (rest is padding); names outside the closed tag set are fatal; every
kept entry header is checksum-validated.  The countdown argument is the
number of records left, nentries at the top call (the Python range has
exactly nentries steps once the size assert has passed). -/
def genericTocEntries (data : Bytes) : Nat → Nat → Except ARDFError (List (ARDFHeader × Nat))
  | 0, _ => .ok []
  | n + 1, toc_offset =>
    let entry_header := ARDFHeader.unpack data toc_offset
    let pointer := readU64 data (toc_offset + 16)
    if pointer = 0 then .ok []
    else if ¬ (entry_header.name = IMAGtag ∨ entry_header.name = VOLMtag ∨
        entry_header.name = NEXTtag ∨ entry_header.name = THMBtag ∨
        entry_header.name = NSETtag) then
      .error (.malformed "Malformed table of contents." entry_header)
    else do
      let _ ← entry_header.validate
      let rest ← genericTocEntries data n (toc_offset + 24)
      .ok ((entry_header, pointer) :: rest)

/-- ARDFTableOfContents.unpack: require a 32-byte chunk header, validate its
checksum, read the pre-body (size u64, nentries u32, stride u32) at
offset+16, assert stride 24 and the size relation, then decode the entry
records starting at offset+32. -/
def ARDFTableOfContents.unpack (header : ARDFHeader) : Except ARDFError ARDFTableOfContents :=
  if header.size ≠ 32 then .error (.malformed "Malformed table of contents" header)
  else do
    let _ ← header.validate
    let data := header.data
    let offset := header.offset
    let size := readU64 data (offset + 16)
    let nentries := readU32 data (offset + 24)
    let stride := readU32 data (offset + 28)
    if stride ≠ 24 then .error (.assertFail "stride == 24")
    else if size ≠ nentries * stride + 32 then
      .error (.assertFail "size - 32 == nentries * stride")
    else do
      let entries ← genericTocEntries data nentries (offset + 32)
      .ok ⟨data, offset, size, entries⟩

structure ARDFTextTableOfContents where
  data : Bytes
  offset : Nat
  size : Nat
  entries : List (ARDFHeader × Nat)
deriving DecidableEq

/-- Entry loop of ARDFTextTableOfContents.unpack: records of struct format
LL4sLQQ at 32-byte strides (a reserved u64 sits before the pointer), entry
name must be TOFF, null pointer terminates. -/
def textTocEntries (data : Bytes) : Nat → Nat → Except ARDFError (List (ARDFHeader × Nat))
  | 0, _ => .ok []
  | n + 1, toc_offset =>
    let entry_header := ARDFHeader.unpack data toc_offset
    let pointer := readU64 data (toc_offset + 24)
    if pointer = 0 then .ok []
    else if entry_header.name ≠ TOFFtag then
      .error (.malformed "Malformed text table entry." entry_header)
    else do
      let _ ← entry_header.validate
      let rest ← textTocEntries data n (toc_offset + 32)
      .ok ((entry_header, pointer) :: rest)

/-- ARDFTextTableOfContents.unpack: 32-byte TTOC header, validated, then the
pre-body asserts stride 32 and the size relation before decoding entries. -/
def ARDFTextTableOfContents.unpack (header : ARDFHeader) : Except ARDFError ARDFTextTableOfContents :=
  if header.size ≠ 32 ∨ header.name ≠ TTOCtag then
    .error (.malformed "Malformed text table of contents." header)
  else do
    let _ ← header.validate
    let data := header.data
    let offset := header.offset
    let size := readU64 data (offset + 16)
    let nentries := readU32 data (offset + 24)
    let stride := readU32 data (offset + 28)
    if stride ≠ 32 then .error (.assertFail "stride == 32")
    else if size ≠ nentries * stride + 32 then
      .error (.assertFail "size - 32 == nentries * stride")
    else do
      let entries ← textTocEntries data nentries (offset + 32)
      .ok ⟨data, offset, size, entries⟩

structure ARDFVolumeTableOfContents where
  offset : Nat
  size : Nat
  lines : List Nat
  points : List Nat
  pointers : List Nat
deriving DecidableEq

/-- Entry loop of ARDFVolumeTableOfContents.unpack: each 40-byte record is a
16-byte VOFF entry header followed by force_index u32, line u32, point u64,
pointer u64 (struct format LLQQ).  A zero entry checksum means the scan was
interrupted and the rest of the vtoc is zero filled: the array is truncated
there rather than treated as an error.  Entry headers are validated. -/
def vtocEntries (data : Bytes) : Nat → Nat → Except ARDFError (List (Nat × Nat × Nat × Nat))
  | 0, _ => .ok []
  | n + 1, toc_offset =>
    let entry_header := ARDFHeader.unpack data toc_offset
    if entry_header.crc = 0 then .ok []
    else if entry_header.name ≠ VOFFtag then
      .error (.malformed "Malformed volume table entry." entry_header)
    else do
      let _ ← entry_header.validate
      let rest ← vtocEntries data n (toc_offset + 40)
      .ok ((readU32 data (toc_offset + 16), readU32 data (toc_offset + 20),
            readU64 data (toc_offset + 24), readU64 data (toc_offset + 32)) :: rest)

/-- ARDFVolumeTableOfContents.unpack: checks the 32-byte VTOC header fields
and the pre-body asserts, then decodes the parallel line, point and pointer
columns.  Note: unlike the generic and text TOC unpackers, the source never
calls validate() on the VTOC chunk header itself; only the per-entry VOFF
headers are checksum-validated. -/
def ARDFVolumeTableOfContents.unpack (header : ARDFHeader) : Except ARDFError ARDFVolumeTableOfContents :=
  if header.size ≠ 32 ∨ header.name ≠ VTOCtag then
    .error (.malformed "Malformed volume table of contents." header)
  else
    let data := header.data
    let offset := header.offset
    let size := readU64 data (offset + 16)
    let nentries := readU32 data (offset + 24)
    let stride := readU32 data (offset + 28)
    if stride ≠ 40 then .error (.assertFail "stride == 40")
    else if size ≠ nentries * stride + 32 then
      .error (.assertFail "size - 32 == nentries * stride")
    else do
      let es ← vtocEntries data nentries (offset + 32)
      .ok ⟨offset, size, es.map (fun e => e.2.1), es.map (fun e => e.2.2.1),
           es.map (fun e => e.2.2.2)⟩

/-! ## Prefix agreement: tools to show that the TOC unpackers decide
inconsistent-triple failures from the first 32 bytes of the chunk alone,
before any entry record is consulted. -/

abbrev agreeOn (d d2 : Bytes) (a b : Nat) : Prop :=
  ∀ i, a ≤ i → i < b → byteAt d i = byteAt d2 i

theorem readU32_congr {d d2 : Bytes} {a b o : Nat} (h : agreeOn d d2 a b)
    (h1 : a ≤ o) (h2 : o + 4 ≤ b) : readU32 d o = readU32 d2 o := by
  unfold readU32
  rw [h o h1 (by omega), h (o+1) (by omega) (by omega),
    h (o+2) (by omega) (by omega), h (o+3) (by omega) (by omega)]

theorem readU64_congr {d d2 : Bytes} {a b o : Nat} (h : agreeOn d d2 a b)
    (h1 : a ≤ o) (h2 : o + 8 ≤ b) : readU64 d o = readU64 d2 o := by
  unfold readU64
  rw [readU32_congr h h1 (by omega), readU32_congr h (by omega) (by omega)]

theorem eq_of_byteAt_eq : ∀ (l1 l2 : Bytes), l1.length = l2.length →
    (∀ i, i < l1.length → byteAt l1 i = byteAt l2 i) → l1 = l2
  | [], [], _, _ => rfl
  | [], _ :: _, h, _ => by simp at h
  | _ :: _, [], h, _ => by simp at h
  | a :: t1, b :: t2, hlen, h => by
      have h0 := h 0 (by simp)
      simp only [byteAt, List.getD_cons_zero] at h0
      have ht := eq_of_byteAt_eq t1 t2 (by simpa using hlen)
        (fun i hi => by
          have := h (i + 1) (by simp; omega)
          simpa [byteAt] using this)
      rw [h0, ht]

theorem byteAt_readBytes (d : Bytes) {o n k : Nat} (hk : k < n) :
    byteAt (readBytes d o n) k = byteAt d (o + k) := by
  rw [readBytes, byteAt_take _ hk, byteAt_drop]

theorem length_readBytes (d : Bytes) {o n : Nat} (h : o + n ≤ d.length) :
    (readBytes d o n).length = n := by
  simp [readBytes]; omega

theorem readBytes_congr {d d2 : Bytes} {a b o n : Nat} (h : agreeOn d d2 a b)
    (h1 : a ≤ o) (h2 : o + n ≤ b) (h3 : o + n ≤ d.length)
    (h4 : o + n ≤ d2.length) : readBytes d o n = readBytes d2 o n := by
  apply eq_of_byteAt_eq
  · rw [length_readBytes d h3, length_readBytes d2 h4]
  · intro i hi
    rw [length_readBytes d h3] at hi
    rw [byteAt_readBytes d hi, byteAt_readBytes d2 hi]
    exact h (o + i) (by omega) (by omega)

theorem pyslice_eq_readBytes (d : Bytes) (a b : Nat) :
    pyslice d a b = readBytes d a (b - a) := by
  rw [pyslice, readBytes, List.drop_take]

theorem header_unpack_congr {d d2 : Bytes} {offset b : Nat}
    (h : agreeOn d d2 0 b) (h1 : offset + 16 ≤ b) (h3 : offset + 16 ≤ d.length)
    (h4 : offset + 16 ≤ d2.length) :
    (ARDFHeader.unpack d offset).crc = (ARDFHeader.unpack d2 offset).crc ∧
    (ARDFHeader.unpack d offset).size = (ARDFHeader.unpack d2 offset).size ∧
    (ARDFHeader.unpack d offset).name = (ARDFHeader.unpack d2 offset).name ∧
    (ARDFHeader.unpack d offset).flags = (ARDFHeader.unpack d2 offset).flags := by
  refine ⟨readU32_congr h (by omega) (by omega), readU32_congr h (by omega) (by omega),
    readBytes_congr h (by omega) (by omega) (by omega) (by omega),
    readU32_congr h (by omega) (by omega)⟩

theorem except_bind_ok {α β γ : Type} {x : Except α β} {f : β → Except α γ} {v : γ}
    (h : (x >>= f) = .ok v) : ∃ a, x = .ok a ∧ f a = .ok v := by
  cases x with
  | error e => simp [Bind.bind, Except.bind] at h
  | ok a => exact ⟨a, rfl, by simpa [Bind.bind, Except.bind] using h⟩

/-- Declared triple consistency of a TOC pre-body at offset+16: the stride
matches the fixed constant of the TOC kind and
entry_count * stride + 32 = size. -/
def tocTriple (data : Bytes) (offset stride0 : Nat) : Prop :=
  readU32 data (offset + 28) = stride0 ∧
  readU64 data (offset + 16) = readU32 data (offset + 24) * stride0 + 32

instance (data : Bytes) (offset stride0 : Nat) : Decidable (tocTriple data offset stride0) := by
  unfold tocTriple; infer_instance

/-- C7: every TOC unpacker (generic, text, volume) only succeeds when the
declared triple satisfies entry_count * stride + 32 = size with the stride
fixed per kind (24, 32, 40); and whenever the triple read from the 32-byte
chunk prefix is inconsistent, unpacking fails for every buffer that shares
that prefix, i.e. before any entry payload is read. -/
theorem toc_triple_spec :
    (∀ (header : ARDFHeader) t, ARDFTableOfContents.unpack header = .ok t →
        tocTriple header.data header.offset 24) ∧
    (∀ (header : ARDFHeader) t, ARDFTextTableOfContents.unpack header = .ok t →
        tocTriple header.data header.offset 32) ∧
    (∀ (header : ARDFHeader) t, ARDFVolumeTableOfContents.unpack header = .ok t →
        tocTriple header.data header.offset 40) ∧
    (∀ data data2 offset, ¬ tocTriple data offset 24 →
        agreeOn data data2 0 (offset + 32) →
        ∃ e, ARDFTableOfContents.unpack (ARDFHeader.unpack data2 offset) = .error e) ∧
    (∀ data data2 offset, ¬ tocTriple data offset 32 →
        agreeOn data data2 0 (offset + 32) →
        ∃ e, ARDFTextTableOfContents.unpack (ARDFHeader.unpack data2 offset) = .error e) ∧
    (∀ data data2 offset, ¬ tocTriple data offset 40 →
        agreeOn data data2 0 (offset + 32) →
        ∃ e, ARDFVolumeTableOfContents.unpack (ARDFHeader.unpack data2 offset) = .error e) := by
  refine ⟨?_, ?_, ?_, ?_, ?_, ?_⟩
  · intro header t h
    unfold ARDFTableOfContents.unpack at h
    split at h
    · exact absurd h (by simp)
    · obtain ⟨b, hval, h2⟩ := except_bind_ok h
      dsimp only at h2
      split at h2
      · exact absurd h2 (by simp)
      · split at h2
        · exact absurd h2 (by simp)
        · rename_i hstride hsize
          have h1 : readU32 header.data (header.offset + 28) = 24 := by omega
          refine ⟨h1, ?_⟩
          rw [h1] at hsize
          omega
  · intro header t h
    unfold ARDFTextTableOfContents.unpack at h
    split at h
    · exact absurd h (by simp)
    · obtain ⟨b, hval, h2⟩ := except_bind_ok h
      dsimp only at h2
      split at h2
      · exact absurd h2 (by simp)
      · split at h2
        · exact absurd h2 (by simp)
        · rename_i hstride hsize
          have h1 : readU32 header.data (header.offset + 28) = 32 := by omega
          refine ⟨h1, ?_⟩
          rw [h1] at hsize
          omega
  · intro header t h
    unfold ARDFVolumeTableOfContents.unpack at h
    split at h
    · exact absurd h (by simp)
    · dsimp only at h
      split at h
      · exact absurd h (by simp)
      · split at h
        · exact absurd h (by simp)
        · rename_i hstride hsize
          have h1 : readU32 header.data (header.offset + 28) = 40 := by omega
          refine ⟨h1, ?_⟩
          rw [h1] at hsize
          omega
  · intro data data2 offset hvt hagree
    have e28 : readU32 data2 (offset + 28) = readU32 data (offset + 28) :=
      (readU32_congr hagree (by omega) (by omega)).symm
    have e24 : readU32 data2 (offset + 24) = readU32 data (offset + 24) :=
      (readU32_congr hagree (by omega) (by omega)).symm
    have e16 : readU64 data2 (offset + 16) = readU64 data (offset + 16) :=
      (readU64_congr hagree (by omega) (by omega)).symm
    unfold ARDFTableOfContents.unpack
    split
    · exact ⟨_, rfl⟩
    · cases hv : (ARDFHeader.unpack data2 offset).validate with
      | error e =>
          refine ⟨e, ?_⟩
          simp only [Bind.bind, Except.bind, hv]
      | ok b =>
          simp only [Bind.bind, Except.bind, hv, unpack_data, unpack_offset]
          rw [tocTriple, not_and_or] at hvt
          rcases hvt with hs | hs
          · rw [if_pos (by rw [e28]; exact hs)]
            exact ⟨_, rfl⟩
          · by_cases h28 : readU32 data2 (offset + 28) = 24
            · rw [if_neg (by simp [h28])]
              rw [if_pos (by rw [e16, e24, h28]; exact hs)]
              exact ⟨_, rfl⟩
            · rw [if_pos h28]
              exact ⟨_, rfl⟩
  · intro data data2 offset hvt hagree
    have e28 : readU32 data2 (offset + 28) = readU32 data (offset + 28) :=
      (readU32_congr hagree (by omega) (by omega)).symm
    have e24 : readU32 data2 (offset + 24) = readU32 data (offset + 24) :=
      (readU32_congr hagree (by omega) (by omega)).symm
    have e16 : readU64 data2 (offset + 16) = readU64 data (offset + 16) :=
      (readU64_congr hagree (by omega) (by omega)).symm
    unfold ARDFTextTableOfContents.unpack
    split
    · exact ⟨_, rfl⟩
    · cases hv : (ARDFHeader.unpack data2 offset).validate with
      | error e =>
          refine ⟨e, ?_⟩
          simp only [Bind.bind, Except.bind, hv]
      | ok b =>
          simp only [Bind.bind, Except.bind, hv, unpack_data, unpack_offset]
          rw [tocTriple, not_and_or] at hvt
          rcases hvt with hs | hs
          · rw [if_pos (by rw [e28]; exact hs)]
            exact ⟨_, rfl⟩
          · by_cases h28 : readU32 data2 (offset + 28) = 32
            · rw [if_neg (by simp [h28])]
              rw [if_pos (by rw [e16, e24, h28]; exact hs)]
              exact ⟨_, rfl⟩
            · rw [if_pos h28]
              exact ⟨_, rfl⟩
  · intro data data2 offset hvt hagree
    have e28 : readU32 data2 (offset + 28) = readU32 data (offset + 28) :=
      (readU32_congr hagree (by omega) (by omega)).symm
    have e24 : readU32 data2 (offset + 24) = readU32 data (offset + 24) :=
      (readU32_congr hagree (by omega) (by omega)).symm
    have e16 : readU64 data2 (offset + 16) = readU64 data (offset + 16) :=
      (readU64_congr hagree (by omega) (by omega)).symm
    unfold ARDFVolumeTableOfContents.unpack
    split
    · exact ⟨_, rfl⟩
    · simp only [unpack_data, unpack_offset]
      rw [tocTriple, not_and_or] at hvt
      rcases hvt with hs | hs
      · rw [if_pos (by rw [e28]; exact hs)]
        exact ⟨_, rfl⟩
      · by_cases h28 : readU32 data2 (offset + 28) = 40
        · rw [if_neg (by simp [h28])]
          rw [if_pos (by rw [e16, e24, h28]; exact hs)]
          exact ⟨_, rfl⟩
        · rw [if_pos h28]
          exact ⟨_, rfl⟩

deriving instance DecidableEq for Except

/-! ## Concrete demonstration buffers (checksums precomputed with zlib
parameters; layout documented per buffer). -/

/-- A 16-byte chunk (MLOV-style): valid checksum over bytes [4, 16). -/
def hdrDemo : Bytes := [112, 97, 163, 15, 16, 0, 0, 0, 77, 76, 79, 86, 0, 0, 0, 0]

/-- A generic TOC chunk with zero entries: size 32, stride 24, valid crc. -/
def gtocDemo : Bytes := [219, 178, 115, 63, 32, 0, 0, 0, 70, 84, 79, 67, 0, 0, 0, 0, 32, 0, 0, 0, 0, 0, 0, 0, 0, 0, 0, 0, 24, 0, 0, 0]

/-- A generic TOC chunk with an inconsistent triple: declared stride 25. -/
def gtocBadDemo : Bytes := [190, 213, 207, 135, 32, 0, 0, 0, 70, 84, 79, 67, 0, 0, 0, 0, 32, 0, 0, 0, 0, 0, 0, 0, 0, 0, 0, 0, 25, 0, 0, 0]

/-- A text TOC chunk with zero entries: size 32, stride 32, valid crc. -/
def ttocDemo : Bytes := [167, 209, 188, 172, 32, 0, 0, 0, 84, 84, 79, 67, 0, 0, 0, 0, 32, 0, 0, 0, 0, 0, 0, 0, 0, 0, 0, 0, 32, 0, 0, 0]

/-- A volume TOC chunk with zero entries whose own header checksum field
holds the wrong value 0xDEADBEEF; the triple (stride 40, zero entries) is
consistent. -/
def vtocBadCrcDemo : Bytes := [239, 190, 173, 222, 32, 0, 0, 0, 86, 84, 79, 67, 0, 0, 0, 0, 32, 0, 0, 0, 0, 0, 0, 0, 0, 0, 0, 0, 40, 0, 0, 0]

/-- A volume TOC chunk with one VOFF entry (line 5, point 7, pointer 256);
all checksums valid. -/
def vtocOneDemo : Bytes := [17, 39, 203, 54, 32, 0, 0, 0, 86, 84, 79, 67, 0, 0, 0, 0, 72, 0, 0, 0, 0, 0, 0, 0, 1, 0, 0, 0, 40, 0, 0, 0, 228, 150, 81, 116, 40, 0, 0, 0, 86, 79, 70, 70, 0, 0, 0, 0, 0, 0, 0, 0, 5, 0, 0, 0, 7, 0, 0, 0, 0, 0, 0, 0, 0, 1, 0, 0, 0, 0, 0, 0]

/-- Witness for validate_checksum_spec: a concrete chunk that validates, and
the mutation part applied at byte 8 of its checksummed range. -/
theorem validate_checksum_spec_witness :
    (ARDFHeader.unpack hdrDemo 0).validate = .ok true ∧
    ARDFHeader.validate { ARDFHeader.unpack hdrDemo 0 with data := hdrDemo.set 8 0 } =
      .error (.checksumMismatch { ARDFHeader.unpack hdrDemo 0 with data := hdrDemo.set 8 0 }) :=
  ⟨by decide,
   validate_checksum_spec.2.2 (ARDFHeader.unpack hdrDemo 0) 8 0 (by decide)
     (by decide) (by decide) (by decide) (by decide) (by decide) (by decide)⟩

/-- Witness for toc_triple_spec: consistent triples decoded by all three
unpackers on concrete chunks, and a concrete inconsistent generic TOC chunk
that fails to unpack. -/
theorem toc_triple_spec_witness :
    tocTriple gtocDemo 0 24 ∧ tocTriple ttocDemo 0 32 ∧ tocTriple vtocOneDemo 0 40 ∧
    (∃ e, ARDFTableOfContents.unpack (ARDFHeader.unpack gtocBadDemo 0) = .error e) :=
  ⟨toc_triple_spec.1 (ARDFHeader.unpack gtocDemo 0) ⟨gtocDemo, 0, 32, []⟩ (by decide),
   toc_triple_spec.2.1 (ARDFHeader.unpack ttocDemo 0) ⟨ttocDemo, 0, 32, []⟩ (by decide),
   toc_triple_spec.2.2.1 (ARDFHeader.unpack vtocOneDemo 0) ⟨0, 72, [5], [7], [256]⟩ (by decide),
   toc_triple_spec.2.2.2.1 gtocBadDemo gtocBadDemo 0 (by decide) (fun i _ _ => rfl)⟩

/-- C8 counterexample: the volume TOC unpacker succeeds on a VTOC chunk
whose own header checksum is invalid, so unpacking the volume table of
contents does not validate the VTOC chunk header before decoding its entry
records. -/
theorem vtoc_unvalidated_header_cx :
    (ARDFHeader.unpack vtocBadCrcDemo 0).validate =
      .error (.checksumMismatch (ARDFHeader.unpack vtocBadCrcDemo 0)) ∧
    ARDFVolumeTableOfContents.unpack (ARDFHeader.unpack vtocBadCrcDemo 0) =
      .ok ⟨0, 32, [], [], []⟩ := by
  constructor
  · decide
  · decide

theorem validate_ok_true {h : ARDFHeader} {b : Bool}
    (hv : h.validate = .ok b) : h.validate = .ok true := by
  unfold ARDFHeader.validate at hv ⊢
  split at hv
  · exact absurd hv (by simp)
  · rw [if_neg (by assumption)]

/-- C8 amended: the generic and text TOC unpackers validate their own chunk
header checksum before decoding entries; the volume TOC unpacker does not
validate its own VTOC header (see the counterexample), but it does validate
the header of every entry record it decodes. -/
theorem toc_validate_discipline :
    (∀ (header : ARDFHeader) t, ARDFTableOfContents.unpack header = .ok t →
        header.validate = .ok true) ∧
    (∀ (header : ARDFHeader) t, ARDFTextTableOfContents.unpack header = .ok t →
        header.validate = .ok true) ∧
    (∀ (data : Bytes) (n off : Nat) es, vtocEntries data n off = .ok es →
        ∀ k, k < es.length →
          (ARDFHeader.unpack data (off + 40 * k)).validate = .ok true) := by
  refine ⟨?_, ?_, ?_⟩
  · intro header t h
    unfold ARDFTableOfContents.unpack at h
    split at h
    · exact absurd h (by simp)
    · obtain ⟨b, hval, _⟩ := except_bind_ok h
      exact validate_ok_true hval
  · intro header t h
    unfold ARDFTextTableOfContents.unpack at h
    split at h
    · exact absurd h (by simp)
    · obtain ⟨b, hval, _⟩ := except_bind_ok h
      exact validate_ok_true hval
  · intro data n
    induction n with
    | zero =>
        intro off es h k hk
        unfold vtocEntries at h
        obtain rfl : ([] : List (Nat × Nat × Nat × Nat)) = es := by
          simpa using h
        simp at hk
    | succ m ih =>
        intro off es h k hk
        unfold vtocEntries at h
        dsimp only at h
        split at h
        · obtain rfl : ([] : List (Nat × Nat × Nat × Nat)) = es := by
            simpa using h
          simp at hk
        · split at h
          · exact absurd h (by simp)
          · obtain ⟨b, hval, h2⟩ := except_bind_ok h
            obtain ⟨rest, hrest, h3⟩ := except_bind_ok h2
            have hes : es = (readU32 data (off + 16), readU32 data (off + 20),
                readU64 data (off + 24), readU64 data (off + 32)) :: rest := by
              simpa [pure, Except.pure] using h3.symm
            subst hes
            cases k with
            | zero =>
                simpa using validate_ok_true hval
            | succ j =>
                have := ih (off + 40) rest hrest j (by simpa using hk)
                have harith : off + 40 + 40 * j = off + 40 * (j + 1) := by ring
                rwa [harith] at this

/-- Witness for toc_validate_discipline: concrete applications to a valid
generic TOC chunk and to the single decoded VOFF entry of a volume TOC. -/
theorem toc_validate_discipline_witness :
    (ARDFHeader.unpack gtocDemo 0).validate = .ok true ∧
    (ARDFHeader.unpack vtocOneDemo (32 + 40 * 0)).validate = .ok true :=
  ⟨toc_validate_discipline.1 (ARDFHeader.unpack gtocDemo 0) ⟨gtocDemo, 0, 32, []⟩ (by decide),
   toc_validate_discipline.2.2 vtocOneDemo 1 32 [(0, 5, 7, 256)] (by decide) 0 (by decide)⟩

/-! ## Channel, experiment and volume-set chunk records. -/

abbrev Samples := List Nat
abbrev Pair := Samples × Samples
abbrev Curve := Pair × Pair
abbrev Index3 := Nat × Nat × Nat
abbrev Index2 := Nat × Nat

/-- decode_cstring: strip trailing NUL bytes; the windows-1252 decode is
modeled as identity on byte values. -/
def stripNulls (l : Bytes) : Bytes := (l.reverse.dropWhile (· == 0)).reverse

def splitSemiAux : Bytes → Bytes → List Bytes
  | [], acc => [acc.reverse]
  | b :: rest, acc =>
    if b = 59 then acc.reverse :: splitSemiAux rest []
    else splitSemiAux rest (b :: acc)

/-- Python str.split on the semicolon character (byte 59). -/
def splitSemi (l : Bytes) : List Bytes := splitSemiAux l []

def RawName : Bytes := [82, 97, 119]
def ZSnsrName : Bytes := [90, 83, 110, 115, 114]
def DeflName : Bytes := [68, 101, 102, 108]
def meterUnit : Bytes := [109]

structure ARDFVchan where
  name : Bytes
  unit : Bytes
deriving DecidableEq

/-- ARDFVchan.unpack: an 80-byte VCHN chunk holding two 32-byte
null-terminated strings (channel name, unit) at offset+16. -/
def ARDFVchan.unpack (header : ARDFHeader) : Except ARDFError ARDFVchan :=
  if header.size ≠ 80 ∨ header.name ≠ VCHNtag then
    .error (.malformed "Malformed channel definition." header)
  else do
    let _ ← header.validate
    .ok ⟨stripNulls (readBytes header.data (header.offset + 16) 32),
         stripNulls (readBytes header.data (header.offset + 48) 32)⟩

structure ARDFXdef where
  offset : Nat
  size : Nat
  xdef : List Bytes
deriving DecidableEq

/-- ARDFXdef.unpack: a 96-byte XDEF chunk; a reserved u32 asserted zero, a
u32 character count bounded by the chunk size, then the semicolon-separated
experiment definition string (last empty piece dropped). -/
def ARDFXdef.unpack (header : ARDFHeader) : Except ARDFError ARDFXdef :=
  if header.size ≠ 96 ∨ header.name ≠ XDEFtag then
    .error (.malformed "Malformed experiment definition." header)
  else do
    let _ ← header.validate
    let r := readU32 header.data (header.offset + 16)
    let nchars := readU32 header.data (header.offset + 20)
    if r ≠ 0 then .error (.assertFail "reserved == 0")
    else if nchars > header.size then
      .error (.malformed "Experiment definition too long." header)
    else
      .ok ⟨header.offset, header.size,
           (splitSemi (readBytes header.data (header.offset + 24) nchars)).dropLast⟩

structure ARDFVset where
  data : Bytes
  offset : Nat
  size : Nat
  force_index : Nat
  line : Nat
  point : Nat
  vtype : Nat
  prev_vset_offset : Nat
  next_vset_offset : Nat
deriving DecidableEq

/-- ARDFVset.unpack: check the VSET tag, validate the header checksum, then
decode struct format LLLLQQ at offset+16; the size is the constant 48. -/
def ARDFVset.unpack (vset_header : ARDFHeader) : Except ARDFError ARDFVset :=
  if vset_header.name ≠ VSETtag then
    .error (.malformed "malformed VSET header" vset_header)
  else do
    let _ ← vset_header.validate
    let data := vset_header.data
    let offset := vset_header.offset
    .ok ⟨data, offset, 48, readU32 data (offset + 16), readU32 data (offset + 20),
         readU32 data (offset + 24), readU32 data (offset + 28),
         readU64 data (offset + 32), readU64 data (offset + 40)⟩

structure ARDFVdata where
  data : Bytes
  offset : Nat
  size : Nat
  force_index : Nat
  line : Nat
  point : Nat
  nfloats : Nat
  channel : Nat
  seg_offsets : List Nat
deriving DecidableEq

/-- ARDFVdata.unpack: decode struct format 10L at offset+16 (force_index,
line, point, nfloats, channel and five segment offsets); size constant 56.
No checks are performed here: the callers validate the VDAT header first. -/
def ARDFVdata.unpack (header : ARDFHeader) : ARDFVdata :=
  ⟨header.data, header.offset, 56,
   readU32 header.data (header.offset + 16), readU32 header.data (header.offset + 20),
   readU32 header.data (header.offset + 24), readU32 header.data (header.offset + 28),
   readU32 header.data (header.offset + 32),
   [readU32 header.data (header.offset + 36), readU32 header.data (header.offset + 40),
    readU32 header.data (header.offset + 44), readU32 header.data (header.offset + 48),
    readU32 header.data (header.offset + 52)]⟩

def ARDFVdata.array_offset (v : ARDFVdata) : Nat := v.offset + v.size

/-- get_ndarray: the nfloats float32 words inline after the header, each
unit-converted; conv models the float32 multiplication by
NANOMETER_UNIT_CONVERSION as a transformation of the raw stored word. -/
def ARDFVdata.get_ndarray (v : ARDFVdata) (conv : Nat → Nat) : Samples :=
  (List.range v.nfloats).map (fun i => conv (readU32 v.data (v.array_offset + 4 * i)))

/-! ## The pointer-chase force-map reader (ARDFForceMapReader). -/

def alookup {κ α : Type} [DecidableEq κ] : List (κ × α) → κ → Option α
  | [], _ => none
  | (k2, v) :: rest, k => if k2 = k then some v else alookup rest k

def aupdate {κ α : Type} [DecidableEq κ] : List (κ × α) → κ → α → List (κ × α)
  | [], k, v => [(k, v)]
  | (k2, v2) :: rest, k, v =>
    if k2 = k then (k2, v) :: rest else (k2, v2) :: aupdate rest k v

/-- Channel map: channel name to (index, channel record), dict semantics. -/
abbrev ChanMap := List (Bytes × (Nat × ARDFVchan))

/-- The _seen_vsets traversal cache: (line, point, vtype) to vset. -/
abbrev VCache := List (Index3 × ARDFVset)

/-- dict.setdefault semantics of the _seen_vsets fill: insert only when the
index is absent. -/
def cacheInsert (c : VCache) (k : Index3) (v : ARDFVset) : VCache :=
  if (alookup c k).isSome then c else c ++ [(k, v)]

structure ARDFForceMapReader where
  data : Bytes
  vtoc : ARDFVolumeTableOfContents
  lines : Nat
  points : Nat
  vtype : Nat
  channels : ChanMap
deriving DecidableEq

/-- zname property: Raw when present in the channel map, else ZSnsr. -/
def ARDFForceMapReader.zname (R : ARDFForceMapReader) : Bytes :=
  if (alookup R.channels RawName).isSome then RawName else ZSnsrName

/-- traverse_vsets: follow the forward-linked VSET chain, recording every
vset in the seen cache before yielding it, and stop at the first non-VSET
header.  Fuel bounds the while-True loop; exhaustion models divergence on a
cyclic chain. -/
def traverseVsets (data : Bytes) : Nat → VCache → Nat → Except ARDFError (List ARDFVset × VCache)
  | 0, _, _ => .error .fuelOut
  | fuel + 1, cache, pointer =>
    let header := ARDFHeader.unpack data pointer
    if header.name ≠ VSETtag then .ok ([], cache)
    else do
      let vset ← ARDFVset.unpack header
      let cache2 := cacheInsert cache (vset.line, vset.point, vset.vtype) vset
      let (rest, cache3) ← traverseVsets data fuel cache2 vset.next_vset_offset
      .ok (vset :: rest, cache3)

/-- The row-reading loop of get_curve: for vset in traverse_vsets(pointer),
break once vset.line differs from r.  The generator caches each vset before
yielding, so the vset that triggers the break is cached as well. -/
def traverseRowVsets (data : Bytes) (r : Nat) : Nat → VCache → Nat → Except ARDFError VCache
  | 0, _, _ => .error .fuelOut
  | fuel + 1, cache, pointer =>
    let header := ARDFHeader.unpack data pointer
    if header.name ≠ VSETtag then .ok cache
    else do
      let vset ← ARDFVset.unpack header
      let cache2 := cacheInsert cache (vset.line, vset.point, vset.vtype) vset
      if vset.line ≠ r then .ok cache2
      else traverseRowVsets data r fuel cache2 vset.next_vset_offset

def vdatChain (data : Bytes) : Nat → Nat → Except ARDFError (List ARDFVdata)
  | 0, _ => .error .fuelOut
  | fuel + 1, pointer =>
    let vdat_header := ARDFHeader.unpack data pointer
    if vdat_header.name ≠ VDATtag then .ok []
    else do
      let _ ← vdat_header.validate
      let rest ← vdatChain data fuel (vdat_header.offset + vdat_header.size)
      .ok (ARDFVdata.unpack vdat_header :: rest)

/-- traverse_vdats: check and validate the VNAM header at the pointer, then
yield the validated VDAT chain that follows it. -/
def traverseVdats (data : Bytes) (fuel pointer : Nat) : Except ARDFError (List ARDFVdata) :=
  let vnam_header := ARDFHeader.unpack data pointer
  if vnam_header.name ≠ VNAMtag then
    .error (.malformed "Malformed volume name" vnam_header)
  else do
    let _ ← vnam_header.validate
    vdatChain data fuel (vnam_header.offset + vnam_header.size)

/-- Split a sample array at seg_offsets[1] and seg_offsets[2]:
z[: s[1]] and z[s[1] : s[2]]. -/
def pairOf (a : Samples) (s1 s2 : Nat) : Pair := (a.take s1, pyslice a s1 s2)

/-- The per-vdat channel selection loop that appears verbatim in both
get_curve and iter_curves: pick the z channel (by zname) and the Defl
channel, keeping the last assignment; the locals zxr and dxr are threaded
as options since Python leaves them unbound until first assignment. -/
def vdatSelect (conv : Nat → Nat) (channels : ChanMap) (zname : Bytes) :
    List ARDFVdata → Option Pair → Option Pair → Except ARDFError (Option Pair × Option Pair)
  | [], zxr, dxr => .ok (zxr, dxr)
  | vdat :: rest, zxr, dxr =>
    match alookup channels zname with
    | none => .error (.chanKeyError zname)
    | some zc =>
      if vdat.channel = zc.1 then
        vdatSelect conv channels zname rest
          (some (pairOf (vdat.get_ndarray conv) (vdat.seg_offsets.getD 1 0)
            (vdat.seg_offsets.getD 2 0))) dxr
      else
        match alookup channels DeflName with
        | none => .error (.chanKeyError DeflName)
        | some dc =>
          if vdat.channel = dc.1 then
            vdatSelect conv channels zname rest zxr
              (some (pairOf (vdat.get_ndarray conv) (vdat.seg_offsets.getD 1 0)
                (vdat.seg_offsets.getD 2 0)))
          else vdatSelect conv channels zname rest zxr dxr

/-- Walk one vset's companion VDAT chain and run the selection loop over it
from the given carried state. -/
def vsetScan (fuel : Nat) (conv : Nat → Nat) (R : ARDFForceMapReader)
    (vset : ARDFVset) (zxr dxr : Option Pair) : Except ARDFError (Option Pair × Option Pair) := do
  let vdats ← traverseVdats R.data fuel (vset.offset + vset.size)
  vdatSelect conv R.channels R.zname vdats zxr dxr

/-- float32 NaN bit pattern (np.nan cast to float32). -/
def nan32 : Nat := 0x7FC00000

def nanPair : Pair := (List.replicate 100 nan32, List.replicate 100 nan32)

/-- np.full((2, 2, 100), np.nan, np.float32): the fixed placeholder curve
returned when the requested row is absent from the vtoc line column. -/
def nanCurve : Curve := (nanPair, nanPair)

def bisectLeftGo (a : List Nat) (x : Nat) : Nat → Nat → Nat → Nat
  | lo, _, 0 => lo
  | lo, hi, fuel + 1 =>
    if lo < hi then
      if a.getD ((lo + hi) / 2) 0 < x then bisectLeftGo a x ((lo + hi) / 2 + 1) hi fuel
      else bisectLeftGo a x lo ((lo + hi) / 2) fuel
    else lo

/-- numpy searchsorted with side left: binary search for the leftmost
insertion index. -/
def bisectLeft (a : List Nat) (x : Nat) : Nat := bisectLeftGo a x 0 a.length (a.length + 1)

/-- The sl view of get_curve: the vtoc line and pointer columns, reversed
when the line column descends (first entry greater than last). -/
def vtocView (R : ARDFForceMapReader) : List Nat × List Nat :=
  if R.vtoc.lines.getD 0 0 > R.vtoc.lines.getD (R.vtoc.lines.length - 1) 0 then
    (R.vtoc.lines.reverse, R.vtoc.pointers.reverse)
  else (R.vtoc.lines, R.vtoc.pointers)

/-- Tail of get_curve after the bisect block: look the key up in the seen
cache (a missing key is a Python KeyError), walk the resolved vset's VDAT
chain and return the selected pair of curves; an unassigned zxr or dxr at
the return is an UnboundLocalError. -/
def resolveVset (fuel : Nat) (conv : Nat → Nat) (R : ARDFForceMapReader)
    (cache : VCache) (r c : Nat) : Except ARDFError (Curve × VCache) :=
  match alookup cache (r, c, R.vtype) with
  | none => .error (.keyError (r, c, R.vtype))
  | some vset => do
    let sel ← vsetScan fuel conv R vset none none
    match sel with
    | (some zxr, some dxr) => pure ((zxr, dxr), cache)
    | _ => .error .unboundLocal

/-- get_curve of the pointer-chase force-map reader: bounds check, then on a
cache miss bisect the vtoc line column (reversed view when the first line
value exceeds the last), returning the NaN placeholder when the row is not
found, otherwise read the entire row chain into the cache; finally resolve
the cached vset and cut its curves.  The _seen_vsets cache is threaded
explicitly. -/
def get_curve (fuel : Nat) (conv : Nat → Nat) (R : ARDFForceMapReader)
    (cache : VCache) (r c : Nat) : Except ARDFError (Curve × VCache) :=
  if ¬ (r < R.lines ∧ c < R.points) then
    .error (.invalidIndex (R.lines, R.points) (r, c))
  else if (alookup cache (r, c, R.vtype)).isSome then
    resolveVset fuel conv R cache r c
  else
    let vl := (vtocView R).1
    let vp := (vtocView R).2
    let i := bisectLeft vl r
    if i ≥ R.vtoc.lines.length ∨ r ≠ vl.getD i 0 then .ok (nanCurve, cache)
    else do
      let cache2 ← traverseRowVsets R.data r fuel cache (vp.getD i 0)
      resolveVset fuel conv R cache2 r c

/-- Loop body of iter_curves: skip vsets of mismatching vtype, carry the
selection locals across iterations, and yield ((line, point), (zxr, dxr));
yielding before both locals were ever assigned is a NameError. -/
def iterLoop (fuel : Nat) (conv : Nat → Nat) (R : ARDFForceMapReader) :
    List ARDFVset → Option Pair → Option Pair → Except ARDFError (List (Index2 × Curve))
  | [], _, _ => .ok []
  | vset :: rest, zxr, dxr =>
    if vset.vtype ≠ R.vtype then iterLoop fuel conv R rest zxr dxr
    else do
      let sel ← vsetScan fuel conv R vset zxr dxr
      match sel with
      | (some z, some d) => do
          let out ← iterLoop fuel conv R rest (some z) (some d)
          pure (((vset.line, vset.point), (z, d)) :: out)
      | _ => .error .unboundLocal

/-- iter_curves: traverse the whole VSET chain from vtoc.pointers[0] (the
generator fills the seen cache as a side effect) and yield one entry per
vset of the reader's vtype.  The generator and its consumer touch disjoint
state, so the interleaved Python execution is modeled as the full chain
traversal followed by the per-vset loop. -/
def iter_curves (fuel : Nat) (conv : Nat → Nat) (R : ARDFForceMapReader)
    (cache : VCache) : Except ARDFError (List (Index2 × Curve) × VCache) := do
  let (chain, cache2) ← traverseVsets R.data fuel cache (R.vtoc.pointers.getD 0 0)
  let out ← iterLoop fuel conv R chain none none
  pure (out, cache2)

/-- Per-vdat selection of get_all_curves: unlike get_curve and iter_curves
this loop looks the z channel up under the literal name ZSnsr (not zname),
keeps the vdat objects rather than cutting curves, and also keeps the last
vdat of the walk, which the caller uses for the minext update. -/
def allSelect (channels : ChanMap) :
    List ARDFVdata → Option ARDFVdata → Option ARDFVdata → Option ARDFVdata →
    Except ARDFError (Option ARDFVdata × Option ARDFVdata × Option ARDFVdata)
  | [], zv, dv, lv => .ok (zv, dv, lv)
  | vdat :: rest, zv, dv, _lv =>
    match alookup channels ZSnsrName with
    | none => .error (.chanKeyError ZSnsrName)
    | some zc =>
      if vdat.channel = zc.1 then allSelect channels rest (some vdat) dv (some vdat)
      else
        match alookup channels DeflName with
        | none => .error (.chanKeyError DeflName)
        | some dc =>
          if vdat.channel = dc.1 then allSelect channels rest zv (some vdat) (some vdat)
          else allSelect channels rest zv dv (some vdat)

/-- First loop of get_all_curves: collect (zvdat, dvdat) per pixel into the
vdats dict and fold the minimum of the last-walked vdat seg_offsets[1].
zvdat, dvdat and the inner loop variable vdat persist across iterations as
Python locals do; using one before its first binding is an
UnboundLocalError. -/
def getAllLoop (fuel : Nat) (R : ARDFForceMapReader) :
    List ARDFVset → Option ARDFVdata → Option ARDFVdata → Option ARDFVdata →
    Nat → List (Index2 × (ARDFVdata × ARDFVdata)) →
    Except ARDFError (List (Index2 × (ARDFVdata × ARDFVdata)) × Nat × Option ARDFVdata)
  | [], _, _, lv, minext, acc => .ok (acc, minext, lv)
  | vset :: rest, zv, dv, lv, minext, acc =>
    if vset.vtype ≠ R.vtype then getAllLoop fuel R rest zv dv lv minext acc
    else do
      let vdats ← traverseVdats R.data fuel (vset.offset + vset.size)
      let sel ← allSelect R.channels vdats zv dv lv
      match sel with
      | (some z, some d, some lastv) =>
          getAllLoop fuel R rest (some z) (some d) (some lastv)
            (min minext (lastv.seg_offsets.getD 1 0))
            (aupdate acc (vset.line, vset.point) (z, d))
      | _ => .error .unboundLocal

/-- Second loop of get_all_curves: trim each pixel symmetrically around its
split (floats = 2 * the z-vdat seg_offsets[1]) to minfloats samples and
split the trimmed arrays into the (2, 2, minext) layout.  The numpy
assignment into x[r, c] raises on out-of-range indices and on a
wrong-length right-hand side (broadcast); both are modeled.  The result is
the dict of written entries; cells of np.empty never written are
unspecified in the source and not modeled. -/
def fillLoop (conv : Nat → Nat) (lines points minext minfloats : Nat) :
    List (Index2 × (ARDFVdata × ARDFVdata)) → Except ARDFError (List (Index2 × Curve))
  | [] => .ok []
  | ((r, c), (zv, dv)) :: rest =>
    if ¬ (r < lines ∧ c < points) then .error (.invalidIndex (lines, points) (r, c))
    else
      let floats := zv.seg_offsets.getD 1 0 * 2
      let halfextra := (floats - minfloats) / 2
      let zsl := pyslice (zv.get_ndarray conv) halfextra (minfloats + halfextra)
      let dsl := pyslice (dv.get_ndarray conv) halfextra (minfloats + halfextra)
      if zsl.length ≠ minfloats ∨ dsl.length ≠ minfloats then .error .broadcastError
      else do
        let out ← fillLoop conv lines points minext minfloats rest
        .ok (((r, c), ((zsl.take minext, zsl.drop minext),
                       (dsl.take minext, dsl.drop minext))) :: out)

/-- get_all_curves: eagerly traverse the whole chain, find the minimum
approach length, then materialize every pixel trimmed to the uniform
length.  The del vset, vdat statement after the first loop is a NameError
when the chain was empty or no vdat was ever walked. -/
def get_all_curves (fuel : Nat) (conv : Nat → Nat) (R : ARDFForceMapReader)
    (cache : VCache) : Except ARDFError (List (Index2 × Curve) × VCache) := do
  let (chain, cache2) ← traverseVsets R.data fuel cache (R.vtoc.pointers.getD 0 0)
  let (vd, minext, lv) ← getAllLoop fuel R chain none none none 0xFFFFFFFF []
  if chain = [] then .error .unboundLocal
  else if lv.isNone then .error .unboundLocal
  else do
    let minfloats := 2 * minext
    let out ← fillLoop conv R.lines R.points minext minfloats vd
    pure (out, cache2)

/-! ## Demo force-map volumes.

fmapData is a 2 x 2 grid with vtype 2 and channels ZSnsr (0) and Defl (1):
row 0 has 4-sample curves with seg_offsets (0, 2, 4, 0, 0), row 1 has
6-sample curves with seg_offsets (0, 3, 6, 0, 0).  The chain is
VSET + VNAM + VDAT + VDAT per point at offsets 0, 208, 416, 640, with 16
zero bytes at 864 terminating it.  Sample words encode
1000 * line + 100 * point + 10 * channel + i.  All checksums are valid. -/
def fmapData : Bytes := [160, 34, 47, 29, 48, 0, 0, 0, 86, 83, 69, 84, 0, 0, 0, 0, 0, 0, 0, 0, 0, 0, 0, 0, 0, 0, 0, 0, 2, 0, 0, 0, 0, 0, 0, 0, 0, 0, 0, 0, 208, 0, 0, 0, 0, 0, 0, 0, 199, 154, 215, 148, 16, 0, 0, 0, 86, 78, 65, 77, 0, 0, 0, 0, 146, 20, 163, 93, 72, 0, 0, 0, 86, 68, 65, 84, 0, 0, 0, 0, 0, 0, 0, 0, 0, 0, 0, 0, 0, 0, 0, 0, 4, 0, 0, 0, 0, 0, 0, 0, 0, 0, 0, 0, 2, 0, 0, 0, 4, 0, 0, 0, 0, 0, 0, 0, 0, 0, 0, 0, 0, 0, 0, 0, 1, 0, 0, 0, 2, 0, 0, 0, 3, 0, 0, 0, 153, 177, 54, 25, 72, 0, 0, 0, 86, 68, 65, 84, 0, 0, 0, 0, 0, 0, 0, 0, 0, 0, 0, 0, 0, 0, 0, 0, 4, 0, 0, 0, 1, 0, 0, 0, 0, 0, 0, 0, 2, 0, 0, 0, 4, 0, 0, 0, 0, 0, 0, 0, 0, 0, 0, 0, 10, 0, 0, 0, 11, 0, 0, 0, 12, 0, 0, 0, 13, 0, 0, 0, 9, 216, 247, 103, 48, 0, 0, 0, 86, 83, 69, 84, 0, 0, 0, 0, 1, 0, 0, 0, 0, 0, 0, 0, 1, 0, 0, 0, 2, 0, 0, 0, 0, 0, 0, 0, 0, 0, 0, 0, 160, 1, 0, 0, 0, 0, 0, 0, 199, 154, 215, 148, 16, 0, 0, 0, 86, 78, 65, 77, 0, 0, 0, 0, 251, 179, 70, 91, 72, 0, 0, 0, 86, 68, 65, 84, 0, 0, 0, 0, 1, 0, 0, 0, 0, 0, 0, 0, 1, 0, 0, 0, 4, 0, 0, 0, 0, 0, 0, 0, 0, 0, 0, 0, 2, 0, 0, 0, 4, 0, 0, 0, 0, 0, 0, 0, 0, 0, 0, 0, 100, 0, 0, 0, 101, 0, 0, 0, 102, 0, 0, 0, 103, 0, 0, 0, 30, 67, 32, 37, 72, 0, 0, 0, 86, 68, 65, 84, 0, 0, 0, 0, 1, 0, 0, 0, 0, 0, 0, 0, 1, 0, 0, 0, 4, 0, 0, 0, 1, 0, 0, 0, 0, 0, 0, 0, 2, 0, 0, 0, 4, 0, 0, 0, 0, 0, 0, 0, 0, 0, 0, 0, 110, 0, 0, 0, 111, 0, 0, 0, 112, 0, 0, 0, 113, 0, 0, 0, 215, 21, 66, 114, 48, 0, 0, 0, 86, 83, 69, 84, 0, 0, 0, 0, 2, 0, 0, 0, 1, 0, 0, 0, 0, 0, 0, 0, 2, 0, 0, 0, 208, 0, 0, 0, 0, 0, 0, 0, 128, 2, 0, 0, 0, 0, 0, 0, 199, 154, 215, 148, 16, 0, 0, 0, 86, 78, 65, 77, 0, 0, 0, 0, 90, 151, 243, 62, 80, 0, 0, 0, 86, 68, 65, 84, 0, 0, 0, 0, 2, 0, 0, 0, 1, 0, 0, 0, 0, 0, 0, 0, 6, 0, 0, 0, 0, 0, 0, 0, 0, 0, 0, 0, 3, 0, 0, 0, 6, 0, 0, 0, 0, 0, 0, 0, 0, 0, 0, 0, 232, 3, 0, 0, 233, 3, 0, 0, 234, 3, 0, 0, 235, 3, 0, 0, 236, 3, 0, 0, 237, 3, 0, 0, 222, 147, 159, 49, 80, 0, 0, 0, 86, 68, 65, 84, 0, 0, 0, 0, 2, 0, 0, 0, 1, 0, 0, 0, 0, 0, 0, 0, 6, 0, 0, 0, 1, 0, 0, 0, 0, 0, 0, 0, 3, 0, 0, 0, 6, 0, 0, 0, 0, 0, 0, 0, 0, 0, 0, 0, 242, 3, 0, 0, 243, 3, 0, 0, 244, 3, 0, 0, 245, 3, 0, 0, 246, 3, 0, 0, 247, 3, 0, 0, 126, 51, 135, 65, 48, 0, 0, 0, 86, 83, 69, 84, 0, 0, 0, 0, 3, 0, 0, 0, 1, 0, 0, 0, 1, 0, 0, 0, 2, 0, 0, 0, 160, 1, 0, 0, 0, 0, 0, 0, 96, 3, 0, 0, 0, 0, 0, 0, 199, 154, 215, 148, 16, 0, 0, 0, 86, 78, 65, 77, 0, 0, 0, 0, 253, 129, 113, 53, 80, 0, 0, 0, 86, 68, 65, 84, 0, 0, 0, 0, 3, 0, 0, 0, 1, 0, 0, 0, 1, 0, 0, 0, 6, 0, 0, 0, 0, 0, 0, 0, 0, 0, 0, 0, 3, 0, 0, 0, 6, 0, 0, 0, 0, 0, 0, 0, 0, 0, 0, 0, 76, 4, 0, 0, 77, 4, 0, 0, 78, 4, 0, 0, 79, 4, 0, 0, 80, 4, 0, 0, 81, 4, 0, 0, 124, 10, 160, 99, 80, 0, 0, 0, 86, 68, 65, 84, 0, 0, 0, 0, 3, 0, 0, 0, 1, 0, 0, 0, 1, 0, 0, 0, 6, 0, 0, 0, 1, 0, 0, 0, 0, 0, 0, 0, 3, 0, 0, 0, 6, 0, 0, 0, 0, 0, 0, 0, 0, 0, 0, 0, 86, 4, 0, 0, 87, 4, 0, 0, 88, 4, 0, 0, 89, 4, 0, 0, 90, 4, 0, 0, 91, 4, 0, 0, 0, 0, 0, 0, 0, 0, 0, 0, 0, 0, 0, 0, 0, 0, 0, 0]

/-- A single-row chain whose one VSET has line 7, point 0, vtype 2
(VSET at 0, VNAM at 48, VDATs at 64 and 136, terminator zeros at 208);
samples are 7000..7003 for channel 0 and 7010..7013 for channel 1,
seg_offsets (0, 2, 4, 0, 0). -/
def fmapData5 : Bytes := [243, 209, 38, 25, 48, 0, 0, 0, 86, 83, 69, 84, 0, 0, 0, 0, 0, 0, 0, 0, 7, 0, 0, 0, 0, 0, 0, 0, 2, 0, 0, 0, 0, 0, 0, 0, 0, 0, 0, 0, 208, 0, 0, 0, 0, 0, 0, 0, 199, 154, 215, 148, 16, 0, 0, 0, 86, 78, 65, 77, 0, 0, 0, 0, 140, 172, 24, 240, 72, 0, 0, 0, 86, 68, 65, 84, 0, 0, 0, 0, 0, 0, 0, 0, 7, 0, 0, 0, 0, 0, 0, 0, 4, 0, 0, 0, 0, 0, 0, 0, 0, 0, 0, 0, 2, 0, 0, 0, 4, 0, 0, 0, 0, 0, 0, 0, 0, 0, 0, 0, 88, 27, 0, 0, 89, 27, 0, 0, 90, 27, 0, 0, 91, 27, 0, 0, 188, 209, 90, 36, 72, 0, 0, 0, 86, 68, 65, 84, 0, 0, 0, 0, 0, 0, 0, 0, 7, 0, 0, 0, 0, 0, 0, 0, 4, 0, 0, 0, 1, 0, 0, 0, 0, 0, 0, 0, 2, 0, 0, 0, 4, 0, 0, 0, 0, 0, 0, 0, 0, 0, 0, 0, 98, 27, 0, 0, 99, 27, 0, 0, 100, 27, 0, 0, 101, 27, 0, 0, 0, 0, 0, 0, 0, 0, 0, 0, 0, 0, 0, 0, 0, 0, 0, 0]

/-- Channel map with ZSnsr at index 0 and Defl at index 1, both in meters. -/
def chansZD : ChanMap :=
  [(ZSnsrName, (0, ⟨ZSnsrName, meterUnit⟩)), (DeflName, (1, ⟨DeflName, meterUnit⟩))]

/-- Reader over fmapData with its true 2 x 2 shape. -/
def fmapR : ARDFForceMapReader :=
  ⟨fmapData, ⟨0, 0, [0, 1], [0, 0], [0, 416]⟩, 2, 2, 2, chansZD⟩

/-- Reader over fmapData whose vtoc line column is [0, 2] and whose grid
has 3 lines: row 1 is in range but absent from the vtoc. -/
def fmapR2 : ARDFForceMapReader :=
  ⟨fmapData, ⟨0, 0, [0, 2], [0, 0], [0, 416]⟩, 3, 2, 2, chansZD⟩

/-- Reader over fmapData declaring 3 points per line: point 2 is in range
but no vset for it exists in the chain. -/
def fmapR10 : ARDFForceMapReader :=
  ⟨fmapData, ⟨0, 0, [0, 1], [0, 0], [0, 416]⟩, 2, 3, 2, chansZD⟩

/-- Reader over fmapData5 with the descending vtoc line column
[9, 7, 5, 3, 1]; entry index 1 (line 7) points at the row chain. -/
def fmapR5 : ARDFForceMapReader :=
  ⟨fmapData5, ⟨0, 0, [9, 7, 5, 3, 1], [0, 0, 0, 0, 0], [999, 0, 999, 999, 999]⟩,
   10, 1, 2, chansZD⟩

instance : DecidableEq (Curve × VCache) := instDecidableEqProd

instance : DecidableEq (List (Index2 × Curve) × VCache) := instDecidableEqProd

instance : DecidableEq (List (Index2 × (ARDFVdata × ARDFVdata)) × Nat × Option ARDFVdata) :=
  instDecidableEqProd

theorem vtocView_length (R : ARDFForceMapReader) :
    (vtocView R).1.length = R.vtoc.lines.length := by
  unfold vtocView; split <;> simp

theorem vtocView_mem {R : ARDFForceMapReader} {x : Nat}
    (h : x ∈ (vtocView R).1) : x ∈ R.vtoc.lines := by
  unfold vtocView at h
  split at h <;> simp_all

/-- C2: get_curve raises the fatal invalid-index ValueError when r or c is
outside the declared grid shape, carrying the shape and the index; an
in-range r that is absent from the vtoc line column (and not already in
the traversal cache) does not raise: it returns the fixed (2, 2, 100)
NaN-filled placeholder curve, leaving the cache untouched. -/
theorem get_curve_bounds_and_missing_row (fuel : Nat) (conv : Nat → Nat)
    (R : ARDFForceMapReader) (cache : VCache) (r c : Nat) :
    (¬ (r < R.lines ∧ c < R.points) →
      get_curve fuel conv R cache r c =
        .error (.invalidIndex (R.lines, R.points) (r, c))) ∧
    (r < R.lines → c < R.points → alookup cache (r, c, R.vtype) = none →
      r ∉ R.vtoc.lines →
      get_curve fuel conv R cache r c = .ok (nanCurve, cache)) := by
  constructor
  · intro h
    unfold get_curve
    rw [if_pos h]
  · intro hr hc hcache habs
    unfold get_curve
    rw [if_neg (by simp [hr, hc]), if_neg (by simp [hcache])]
    dsimp only
    rw [if_pos ?cond]
    case cond =>
      by_cases hlen : bisectLeft (vtocView R).1 r ≥ R.vtoc.lines.length
      · exact Or.inl hlen
      · refine Or.inr (fun hEq => habs ?_)
        have hlt : bisectLeft (vtocView R).1 r < (vtocView R).1.length := by
          rw [vtocView_length]; omega
        have hmem : (vtocView R).1.getD (bisectLeft (vtocView R).1 r) 0 ∈ (vtocView R).1 := by
          rw [List.getD_eq_getElem?_getD, List.getElem?_eq_getElem hlt]
          simp [List.getElem_mem hlt]
        exact vtocView_mem (by rw [hEq]; exact hmem)

/-- Witness for the bounds and missing-row behavior: on a 3 x 2 reader whose
vtoc line column is [0, 2], get_curve(3, 0) is out of range and raises,
while get_curve(1, 0) soft-fails to the NaN placeholder. -/
theorem get_curve_bounds_and_missing_row_witness :
    get_curve 99 id fmapR2 [] 3 0 = .error (.invalidIndex (3, 2) (3, 0)) ∧
    get_curve 99 id fmapR2 [] 1 0 = .ok (nanCurve, []) :=
  ⟨(get_curve_bounds_and_missing_row 99 id fmapR2 [] 3 0).1 (by decide),
   (get_curve_bounds_and_missing_row 99 id fmapR2 [] 1 0).2 (by decide) (by decide)
     (by decide) (by decide)⟩

/-- C5: on the descending vtoc line column [9, 7, 5, 3, 1] the bisection
searches the reversed view: row 7 lands at reversed index 3, which is vtoc
entry index 1, the entry whose line is 7, and get_curve follows that
pointer and returns row 7's curve; absent row 6 takes the NaN placeholder
path without raising. -/
theorem bisect_descending_spec :
    bisectLeft ([9, 7, 5, 3, 1] : List Nat).reverse 7 = 3 ∧
    ([9, 7, 5, 3, 1] : List Nat).reverse.getD 3 0 = 7 ∧
    ([9, 7, 5, 3, 1] : List Nat).getD 1 0 = 7 ∧
    (vtocView fmapR5).2.getD 3 0 = fmapR5.vtoc.pointers.getD 1 0 ∧
    get_curve 99 id fmapR5 [] 7 0 =
      .ok ((([7000, 7001], [7002, 7003]), ([7010, 7011], [7012, 7013])),
        [((7, 0, 2), ⟨fmapData5, 0, 48, 0, 7, 0, 2, 0, 208⟩)]) ∧
    get_curve 99 id fmapR5 [] 6 0 = .ok (nanCurve, []) := by
  refine ⟨by decide, by decide, by decide, by decide, by rfl, by rfl⟩

/-- C10: when the requested row is present in the vtoc line column (the
bisect succeeds) but the row chain read into the cache contains no vset
with index (r, c, vtype), get_curve raises a KeyError from the _seen_vsets
lookup rather than returning the NaN placeholder or one of the declared
error kinds. -/
theorem get_curve_missing_point_keyerror (fuel : Nat) (conv : Nat → Nat)
    (R : ARDFForceMapReader) (cache cacheRow : VCache) (r c : Nat)
    (hr : r < R.lines) (hc : c < R.points)
    (hmiss : alookup cache (r, c, R.vtype) = none)
    (hlen : bisectLeft (vtocView R).1 r < R.vtoc.lines.length)
    (hhit : (vtocView R).1.getD (bisectLeft (vtocView R).1 r) 0 = r)
    (hrow : traverseRowVsets R.data r fuel cache
      ((vtocView R).2.getD (bisectLeft (vtocView R).1 r) 0) = .ok cacheRow)
    (hnone : alookup cacheRow (r, c, R.vtype) = none) :
    get_curve fuel conv R cache r c = .error (.keyError (r, c, R.vtype)) := by
  unfold get_curve
  rw [if_neg (by simp [hr, hc]), if_neg (by simp [hmiss])]
  dsimp only
  rw [if_neg (by push_neg; exact ⟨by omega, by rw [hhit]⟩)]
  simp only [Bind.bind, Except.bind, hrow]
  unfold resolveVset
  rw [hnone]

/-- Witness for the missing-point KeyError: the 2 x 2 chain searched with a
declared width of 3 points at pixel (0, 2). -/
theorem get_curve_missing_point_keyerror_witness :
    get_curve 99 id fmapR10 [] 0 2 = .error (.keyError (0, 2, 2)) :=
  get_curve_missing_point_keyerror 99 id fmapR10 []
    [((0, 0, 2), ⟨fmapData, 0, 48, 0, 0, 0, 2, 0, 208⟩),
     ((0, 1, 2), ⟨fmapData, 208, 48, 1, 0, 1, 2, 0, 416⟩),
     ((1, 0, 2), ⟨fmapData, 416, 48, 2, 1, 0, 2, 208, 640⟩)] 0 2
    (by decide) (by decide) (by decide) (by decide) (by decide) (by decide) (by decide)

/-! ## Claim C1: get_curve against iter_curves. -/

/-- Keep the first option when present, else the second (how a Python local
that is only conditionally reassigned combines with its previous value). -/
def oupd {α : Type} (a b : Option α) : Option α :=
  match a with
  | some x => some x
  | none => b

theorem oupd_some {α : Type} (x : α) (b : Option α) : oupd (some x) b = some x := rfl

theorem oupd_none_right {α : Type} (a : Option α) : oupd a none = a := by
  cases a <;> rfl

theorem oupd_oupd {α : Type} (a p b : Option α) :
    oupd (oupd a p) b = oupd a (oupd p b) := by
  cases a <;> cases p <;> rfl

/-- Running the selection loop from an arbitrary carried state is the run
from the empty state with the carried values filling whichever side the
loop never assigned. -/
theorem vdatSelect_shift (conv : Nat → Nat) (channels : ChanMap) (zname : Bytes) :
    ∀ (vdats : List ARDFVdata) (z0 d0 : Option Pair),
    vdatSelect conv channels zname vdats z0 d0 =
      match vdatSelect conv channels zname vdats none none with
      | .ok (a, b) => .ok (oupd a z0, oupd b d0)
      | .error e => .error e
  | [], z0, d0 => rfl
  | vdat :: rest, z0, d0 => by
      unfold vdatSelect
      cases hz : alookup channels zname with
      | none => rfl
      | some zc =>
          dsimp only
          by_cases h1 : vdat.channel = zc.1
          · rw [if_pos h1, if_pos h1]
            generalize pairOf (vdat.get_ndarray conv) (vdat.seg_offsets.getD 1 0)
              (vdat.seg_offsets.getD 2 0) = p
            rw [vdatSelect_shift conv channels zname rest (some p) d0,
              vdatSelect_shift conv channels zname rest (some p) none]
            cases hrest : vdatSelect conv channels zname rest none none with
            | error e => rfl
            | ok ab =>
                obtain ⟨a, b⟩ := ab
                simp only [oupd_oupd, oupd_some, oupd_none_right]
          · rw [if_neg h1, if_neg h1]
            cases hd : alookup channels DeflName with
            | none => rfl
            | some dc =>
                dsimp only
                by_cases h2 : vdat.channel = dc.1
                · rw [if_pos h2, if_pos h2]
                  generalize pairOf (vdat.get_ndarray conv) (vdat.seg_offsets.getD 1 0)
                    (vdat.seg_offsets.getD 2 0) = p
                  rw [vdatSelect_shift conv channels zname rest z0 (some p),
                    vdatSelect_shift conv channels zname rest none (some p)]
                  cases hrest : vdatSelect conv channels zname rest none none with
                  | error e => rfl
                  | ok ab =>
                      obtain ⟨a, b⟩ := ab
                      simp only [oupd_oupd, oupd_some, oupd_none_right]
                · rw [if_neg h2, if_neg h2]
                  exact vdatSelect_shift conv channels zname rest z0 d0

/-- The same shift property lifted through the VDAT chain walk. -/
theorem vsetScan_shift (fuel : Nat) (conv : Nat → Nat) (R : ARDFForceMapReader)
    (vset : ARDFVset) (z0 d0 : Option Pair) :
    vsetScan fuel conv R vset z0 d0 =
      match vsetScan fuel conv R vset none none with
      | .ok (a, b) => .ok (oupd a z0, oupd b d0)
      | .error e => .error e := by
  unfold vsetScan
  cases hv : traverseVdats R.data fuel (vset.offset + vset.size) with
  | error e => simp [Bind.bind, Except.bind]
  | ok vdats =>
      simp only [Bind.bind, Except.bind]
      exact vdatSelect_shift conv R.channels R.zname vdats z0 d0

/-- Decidable success test: the scan of one vset assigned both locals. -/
def scanBothSome (r : Except ARDFError (Option Pair × Option Pair)) : Bool :=
  match r with
  | .ok (some _, some _) => true
  | _ => false

theorem scanBothSome_elim {r : Except ARDFError (Option Pair × Option Pair)}
    (h : scanBothSome r = true) : ∃ a b, r = .ok (some a, some b) := by
  unfold scanBothSome at h
  split at h
  · rename_i a b
    exact ⟨_, _, rfl⟩
  · exact absurd h (by simp)

/-- Characterization of the iter_curves loop output on a chain whose vsets
all have the reader's vtype and all scan successfully: the output is a
faithful pixel-to-curve listing of the chain. -/
theorem iterLoop_spec (fuel : Nat) (conv : Nat → Nat) (R : ARDFForceMapReader) :
    ∀ (L : List ARDFVset) (z0 d0 : Option Pair),
    (∀ W ∈ L, W.vtype = R.vtype) →
    (∀ W ∈ L, scanBothSome (vsetScan fuel conv R W none none) = true) →
    ∃ out, iterLoop fuel conv R L z0 d0 = .ok out ∧
      (∀ W a b, W ∈ L → vsetScan fuel conv R W none none = .ok (some a, some b) →
        ((W.line, W.point), (a, b)) ∈ out) ∧
      (∀ p cu, (p, cu) ∈ out → ∃ W a b, W ∈ L ∧ (W.line, W.point) = p ∧
        vsetScan fuel conv R W none none = .ok (some a, some b) ∧ cu = (a, b))
  | [], z0, d0, _, _ => ⟨[], rfl, by simp, by simp⟩
  | V :: rest, z0, d0, hvt, hall => by
      obtain ⟨a0, b0, hV0⟩ := scanBothSome_elim (hall V (by simp))
      obtain ⟨out', hout', hfwd, hbwd⟩ :=
        iterLoop_spec fuel conv R rest (some a0) (some b0)
          (fun W hW => hvt W (by simp [hW])) (fun W hW => hall W (by simp [hW]))
      refine ⟨((V.line, V.point), (a0, b0)) :: out', ?_, ?_, ?_⟩
      · unfold iterLoop
        rw [if_neg (by simp [hvt V (by simp)])]
        rw [vsetScan_shift fuel conv R V z0 d0, hV0]
        simp only [oupd_some, Bind.bind, Except.bind]
        rw [hout']
        rfl
      · intro W a b hW hscan
        rcases List.mem_cons.1 hW with rfl | hW2
        · rw [hV0] at hscan
          simp only [Except.ok.injEq, Prod.mk.injEq, Option.some.injEq] at hscan
          obtain ⟨ha, hb⟩ := hscan
          rw [← ha, ← hb]
          exact List.mem_cons_self _ _
        · exact List.mem_cons_of_mem _ (hfwd W a b hW2 hscan)
      · intro p cu hmem
        rcases List.mem_cons.1 hmem with heq | h2
        · simp only [Prod.mk.injEq] at heq
          exact ⟨V, a0, b0, by simp, heq.1.symm, hV0, heq.2⟩
        · obtain ⟨W, a, b, hW, hp, hs, hcu⟩ := hbwd p cu h2
          exact ⟨W, a, b, by simp [hW], hp, hs, hcu⟩

theorem alookup_mem {κ α : Type} [DecidableEq κ] :
    ∀ {c : List (κ × α)} {k : κ} {v : α}, alookup c k = some v → (k, v) ∈ c
  | [], k, v, h => by simp [alookup] at h
  | (k2, v2) :: rest, k, v, h => by
      unfold alookup at h
      split at h
      · rename_i heq
        subst heq
        injection h with h2
        subst h2
        exact List.mem_cons_self _ _
      · exact List.mem_cons_of_mem _ (alookup_mem h)

/-- Every entry of the traversal cache is keyed by its vset's own
(line, point, vtype) triple. -/
def cacheWF (c : VCache) : Prop :=
  ∀ kv ∈ c, kv.1 = (kv.2.line, kv.2.point, kv.2.vtype)

theorem cacheInsert_wf {c : VCache} {v : ARDFVset} (hc : cacheWF c) :
    cacheWF (cacheInsert c (v.line, v.point, v.vtype) v) := by
  unfold cacheInsert
  split
  · exact hc
  · intro kv hkv
    rcases List.mem_append.1 hkv with h | h
    · exact hc kv h
    · simp only [List.mem_singleton] at h
      subst h
      rfl

theorem traverseRowVsets_wf {data : Bytes} {r : Nat} :
    ∀ {fuel : Nat} {c0 c1 : VCache} {ptr : Nat},
    traverseRowVsets data r fuel c0 ptr = .ok c1 → cacheWF c0 → cacheWF c1 := by
  intro fuel
  induction fuel with
  | zero =>
      intro c0 c1 ptr h
      exact absurd h (by simp [traverseRowVsets])
  | succ n ih =>
      intro c0 c1 ptr h hwf
      rw [traverseRowVsets] at h
      simp only [] at h
      split at h
      · obtain rfl : c0 = c1 := by simpa using h
        exact hwf
      · obtain ⟨vset, hun, h2⟩ := except_bind_ok h
        split at h2
        · obtain rfl : cacheInsert c0 (vset.line, vset.point, vset.vtype) vset = c1 := by
            simpa using h2
          exact cacheInsert_wf hwf
        · exact ih h2 (cacheInsert_wf hwf)

theorem nodup_pair_unique {L : List ARDFVset}
    (h : (L.map fun W => (W.line, W.point)).Nodup) {V W : ARDFVset}
    (hV : V ∈ L) (hW : W ∈ L) (hl : V.line = W.line) (hp : V.point = W.point) :
    V = W :=
  List.inj_on_of_nodup_map h hV hW (by simp [hl, hp])

/-- A row cache read by traverseRowVsets from an empty cache, whose vsets
all come from the chain list L, resolves the key (r, c, vtype) to the
unique chain vset with that pixel. -/
theorem rowCache_resolves (fuel : Nat) (R : ARDFForceMapReader)
    (L : List ARDFVset) (cacheRow : VCache) (V : ARDFVset) (r c ptr : Nat)
    (hnodup : (L.map fun W => (W.line, W.point)).Nodup)
    (hV : V ∈ L) (hVl : V.line = r) (hVp : V.point = c)
    (hrow : traverseRowVsets R.data r fuel [] ptr = .ok cacheRow)
    (hsub : ∀ kv ∈ cacheRow, kv.2 ∈ L)
    (hfound : (alookup cacheRow (r, c, R.vtype)).isSome = true) :
    alookup cacheRow (r, c, R.vtype) = some V := by
  obtain ⟨W, hW⟩ := Option.isSome_iff_exists.1 hfound
  have hWmem : ((r, c, R.vtype), W) ∈ cacheRow := alookup_mem hW
  have hwf : cacheWF cacheRow := traverseRowVsets_wf hrow (by intro kv hkv; simp at hkv)
  have hWkey := hwf _ hWmem
  simp only [Prod.mk.injEq] at hWkey
  have hWL : W ∈ L := hsub _ hWmem
  have hWV : V = W :=
    nodup_pair_unique hnodup hV hWL (by rw [hVl, hWkey.1]) (by rw [hVp, hWkey.2.1])
  rw [hW, hWV]

/-- Evaluation of get_curve from a fresh cache along the bisect-hit path,
given the resolved vset and its scanned curve. -/
theorem get_curve_resolved (fuel : Nat) (conv : Nat → Nat)
    (R : ARDFForceMapReader) (cacheRow : VCache) (V : ARDFVset)
    (r c : Nat) (zxr dxr : Pair)
    (hr : r < R.lines) (hc : c < R.points)
    (hlen : bisectLeft (vtocView R).1 r < R.vtoc.lines.length)
    (hhit : (vtocView R).1.getD (bisectLeft (vtocView R).1 r) 0 = r)
    (hrow : traverseRowVsets R.data r fuel []
      ((vtocView R).2.getD (bisectLeft (vtocView R).1 r) 0) = .ok cacheRow)
    (hres : alookup cacheRow (r, c, R.vtype) = some V)
    (hcurve : vsetScan fuel conv R V none none = .ok (some zxr, some dxr)) :
    get_curve fuel conv R [] r c = .ok ((zxr, dxr), cacheRow) := by
  unfold get_curve
  rw [if_neg (by simp [hr, hc]), if_neg (by simp [alookup])]
  dsimp only
  rw [if_neg (by push_neg; exact ⟨by omega, by rw [hhit]⟩)]
  simp only [Bind.bind, Except.bind, hrow]
  unfold resolveVset
  rw [hres]
  simp only [Bind.bind, Except.bind, hcurve]
  rfl

/-- C1: on a well-formed force-map volume (the full chain from
vtoc.pointers[0] traverses to a list of vsets of the reader's vtype with
no duplicate pixel, each scanning to a complete curve, and the bisected
row pointer reads a row cache whose vsets all come from that chain and
contain the requested pixel), random access with get_curve from a fresh
cache returns exactly the curve that iter_curves yields for (r, c): the
same unit-converted words, bit for bit, since both run the identical
selection loop on the same vset. -/
theorem get_curve_matches_iter_curves (fuel : Nat) (conv : Nat → Nat)
    (R : ARDFForceMapReader) (L : List ARDFVset) (cacheF cacheRow : VCache)
    (V : ARDFVset) (r c : Nat) (zxr dxr : Pair)
    (hchain : traverseVsets R.data fuel [] (R.vtoc.pointers.getD 0 0) = .ok (L, cacheF))
    (hvt : ∀ W ∈ L, W.vtype = R.vtype)
    (hnodup : (L.map fun W => (W.line, W.point)).Nodup)
    (hall : ∀ W ∈ L, scanBothSome (vsetScan fuel conv R W none none) = true)
    (hr : r < R.lines) (hc : c < R.points)
    (hV : V ∈ L) (hVl : V.line = r) (hVp : V.point = c)
    (hcurve : vsetScan fuel conv R V none none = .ok (some zxr, some dxr))
    (hlen : bisectLeft (vtocView R).1 r < R.vtoc.lines.length)
    (hhit : (vtocView R).1.getD (bisectLeft (vtocView R).1 r) 0 = r)
    (hrow : traverseRowVsets R.data r fuel []
      ((vtocView R).2.getD (bisectLeft (vtocView R).1 r) 0) = .ok cacheRow)
    (hsub : ∀ kv ∈ cacheRow, kv.2 ∈ L)
    (hfound : (alookup cacheRow (r, c, R.vtype)).isSome = true) :
    get_curve fuel conv R [] r c = .ok ((zxr, dxr), cacheRow) ∧
    ∃ out, iter_curves fuel conv R [] = .ok (out, cacheF) ∧
      ((r, c), (zxr, dxr)) ∈ out ∧
      ∀ cu, ((r, c), cu) ∈ out → cu = (zxr, dxr) := by
  constructor
  · exact get_curve_resolved fuel conv R cacheRow V r c zxr dxr hr hc hlen hhit hrow
      (rowCache_resolves fuel R L cacheRow V r c _ hnodup hV hVl hVp hrow hsub hfound) hcurve
  · obtain ⟨out, hout, hfwd, hbwd⟩ := iterLoop_spec fuel conv R L none none hvt hall
    refine ⟨out, ?_, ?_, ?_⟩
    · unfold iter_curves
      simp only [Bind.bind, Except.bind, hchain, hout]
      rfl
    · have := hfwd V zxr dxr hV hcurve
      rwa [hVl, hVp] at this
    · intro cu hcu
      obtain ⟨W2, a, b, hW2, hp2, hs2, rfl⟩ := hbwd (r, c) cu hcu
      simp only [Prod.mk.injEq] at hp2
      have : W2 = V := nodup_pair_unique hnodup hW2 hV (by rw [hp2.1, hVl]) (by rw [hp2.2, hVp])
      subst this
      rw [hcurve] at hs2
      simp only [Except.ok.injEq, Prod.mk.injEq, Option.some.injEq] at hs2
      rw [hs2.1, hs2.2]

/-- The four vsets of the fmapData chain, in on-disk order. -/
def chainW : List ARDFVset :=
  [⟨fmapData, 0, 48, 0, 0, 0, 2, 0, 208⟩,
   ⟨fmapData, 208, 48, 1, 0, 1, 2, 0, 416⟩,
   ⟨fmapData, 416, 48, 2, 1, 0, 2, 208, 640⟩,
   ⟨fmapData, 640, 48, 3, 1, 1, 2, 416, 864⟩]

/-- The seen cache left by a full chain traversal of fmapData. -/
def fullCacheW : VCache :=
  [((0, 0, 2), ⟨fmapData, 0, 48, 0, 0, 0, 2, 0, 208⟩),
   ((0, 1, 2), ⟨fmapData, 208, 48, 1, 0, 1, 2, 0, 416⟩),
   ((1, 0, 2), ⟨fmapData, 416, 48, 2, 1, 0, 2, 208, 640⟩),
   ((1, 1, 2), ⟨fmapData, 640, 48, 3, 1, 1, 2, 416, 864⟩)]

/-- The seen cache left by reading row 0 of fmapData (the break still
caches the first vset of row 1). -/
def rowCacheW : VCache :=
  [((0, 0, 2), ⟨fmapData, 0, 48, 0, 0, 0, 2, 0, 208⟩),
   ((0, 1, 2), ⟨fmapData, 208, 48, 1, 0, 1, 2, 0, 416⟩),
   ((1, 0, 2), ⟨fmapData, 416, 48, 2, 1, 0, 2, 208, 640⟩)]

/-- Witness for C1 at pixel (0, 1) of the fmapData volume. -/
theorem get_curve_matches_iter_curves_witness :
    get_curve 99 id fmapR [] 0 1 =
      .ok ((([100, 101], [102, 103]), ([110, 111], [112, 113])), rowCacheW) ∧
    ∃ out, iter_curves 99 id fmapR [] = .ok (out, fullCacheW) ∧
      ((0, 1), (([100, 101], [102, 103]), ([110, 111], [112, 113]))) ∈ out ∧
      ∀ cu, ((0, 1), cu) ∈ out →
        cu = (([100, 101], [102, 103]), ([110, 111], [112, 113])) :=
  get_curve_matches_iter_curves 99 id fmapR chainW fullCacheW rowCacheW
    ⟨fmapData, 208, 48, 1, 0, 1, 2, 0, 416⟩ 0 1
    ([100, 101], [102, 103]) ([110, 111], [112, 113])
    (by decide) (by decide) (by decide) (by decide) (by decide) (by decide)
    (by decide) (by decide) (by decide) (by decide) (by decide) (by decide)
    (by decide) (by decide) (by decide)

/-! ## C4: get_all_curves against get_curve.

get_all_curves walks the whole VSET chain once, remembers for every pixel
the pair of ZSnsr and Defl vdats, folds the minimum approach length minext
over the last vdat of each walk, and then materializes every pixel trimmed
to 2 * minext samples centred on its own split point.  The lemmas below
characterize the two loops and the assoc-list folds, and the main theorem
relates the materialized entry of a pixel to its get_curve value. -/

/-- Well-formedness of one link of the chain walk as get_all_curves sees
it: the vset companion VDAT chain is exactly a ZSnsr vdat followed by a
Defl vdat, the two channel indices differ, and the two vdats carry equal
segment offsets. -/
def walkOK (fuel : Nat) (data : Bytes) (channels : ChanMap)
    (e : ARDFVset × ARDFVdata × ARDFVdata) : Bool :=
  match alookup channels ZSnsrName, alookup channels DeflName with
  | some zc, some dc =>
    decide (traverseVdats data fuel (e.1.offset + e.1.size) = .ok [e.2.1, e.2.2]) &&
    decide (e.2.1.channel = zc.1) && decide (e.2.2.channel = dc.1) &&
    decide (¬ zc.1 = dc.1) && decide (e.2.1.seg_offsets = e.2.2.seg_offsets)
  | _, _ => false

theorem walkOK_elim {fuel : Nat} {data : Bytes} {channels : ChanMap}
    {e : ARDFVset × ARDFVdata × ARDFVdata}
    (h : walkOK fuel data channels e = true) :
    ∃ zc dc, alookup channels ZSnsrName = some zc ∧
      alookup channels DeflName = some dc ∧
      traverseVdats data fuel (e.1.offset + e.1.size) = .ok [e.2.1, e.2.2] ∧
      e.2.1.channel = zc.1 ∧ e.2.2.channel = dc.1 ∧ ¬ zc.1 = dc.1 ∧
      e.2.1.seg_offsets = e.2.2.seg_offsets := by
  unfold walkOK at h
  cases hz : alookup channels ZSnsrName with
  | none => rw [hz] at h; simp at h
  | some zc =>
    cases hd : alookup channels DeflName with
    | none => rw [hz, hd] at h; simp at h
    | some dc =>
      rw [hz, hd] at h
      simp only [Bool.and_eq_true, decide_eq_true_eq] at h
      exact ⟨zc, dc, rfl, rfl, h.1.1.1.1, h.1.1.1.2, h.1.1.2, h.1.2, h.2⟩

/-- The zname property falls back to ZSnsr when no Raw channel exists. -/
theorem zname_of_no_raw {R : ARDFForceMapReader}
    (h : alookup R.channels RawName = none) : R.zname = ZSnsrName := by
  unfold ARDFForceMapReader.zname
  rw [h]
  rfl

/-- The selection loop of get_curve over a two-vdat walk from unbound
locals picks the split pair of each vdat. -/
theorem vdatSelect_two (conv : Nat → Nat) (channels : ChanMap)
    {zc dc : Nat × ARDFVchan} (zv dv : ARDFVdata)
    (hzc : alookup channels ZSnsrName = some zc)
    (hdc : alookup channels DeflName = some dc)
    (hchz : zv.channel = zc.1) (hchd : dv.channel = dc.1)
    (hne : ¬ zc.1 = dc.1) :
    vdatSelect conv channels ZSnsrName [zv, dv] none none =
      .ok (some (pairOf (zv.get_ndarray conv) (zv.seg_offsets.getD 1 0)
              (zv.seg_offsets.getD 2 0)),
           some (pairOf (dv.get_ndarray conv) (dv.seg_offsets.getD 1 0)
              (dv.seg_offsets.getD 2 0))) := by
  unfold vdatSelect
  simp only [hzc]
  rw [if_pos hchz]
  unfold vdatSelect
  simp only [hzc]
  rw [if_neg (show ¬ dv.channel = zc.1 by rw [hchd]; exact fun hh => hne hh.symm)]
  simp only [hdc]
  rw [if_pos hchd]
  rfl

/-- vsetScan of a two-vdat walk, with zname resolved to ZSnsr. -/
theorem vsetScan_two (fuel : Nat) (conv : Nat → Nat) (R : ARDFForceMapReader)
    {zc dc : Nat × ARDFVchan} (V : ARDFVset) (zv dv : ARDFVdata)
    (hraw : alookup R.channels RawName = none)
    (hzc : alookup R.channels ZSnsrName = some zc)
    (hdc : alookup R.channels DeflName = some dc)
    (htr : traverseVdats R.data fuel (V.offset + V.size) = .ok [zv, dv])
    (hchz : zv.channel = zc.1) (hchd : dv.channel = dc.1)
    (hne : ¬ zc.1 = dc.1) :
    vsetScan fuel conv R V none none =
      .ok (some (pairOf (zv.get_ndarray conv) (zv.seg_offsets.getD 1 0)
              (zv.seg_offsets.getD 2 0)),
           some (pairOf (dv.get_ndarray conv) (dv.seg_offsets.getD 1 0)
              (dv.seg_offsets.getD 2 0))) := by
  unfold vsetScan
  simp only [Bind.bind, Except.bind, htr]
  rw [zname_of_no_raw hraw]
  exact vdatSelect_two conv R.channels zv dv hzc hdc hchz hchd hne

/-- The selection loop of get_all_curves over a two-vdat walk keeps the
two vdats and remembers the Defl vdat as the last one walked. -/
theorem allSelect_two (channels : ChanMap) {zc dc : Nat × ARDFVchan}
    (zv dv : ARDFVdata) (z0 d0 lv0 : Option ARDFVdata)
    (hzc : alookup channels ZSnsrName = some zc)
    (hdc : alookup channels DeflName = some dc)
    (hchz : zv.channel = zc.1) (hchd : dv.channel = dc.1)
    (hne : ¬ zc.1 = dc.1) :
    allSelect channels [zv, dv] z0 d0 lv0 = .ok (some zv, some dv, some dv) := by
  unfold allSelect
  simp only [hzc]
  rw [if_pos hchz]
  unfold allSelect
  simp only [hzc]
  rw [if_neg (show ¬ dv.channel = zc.1 by rw [hchd]; exact fun hh => hne hh.symm)]
  simp only [hdc]
  rw [if_pos hchd]
  rfl

/-- The first loop of get_all_curves over a chain of well-formed two-vdat
walks: it accumulates the per-pixel vdat pairs with dict update semantics,
folds the minimum of the Defl (last-walked) vdat approach lengths, and
keeps the last Defl vdat. -/
theorem getAllLoop_spec (fuel : Nat) (R : ARDFForceMapReader)
    (LW : List (ARDFVset × ARDFVdata × ARDFVdata)) :
    ∀ (z0 d0 lv0 : Option ARDFVdata) (m0 : Nat)
      (acc0 : List (Index2 × (ARDFVdata × ARDFVdata))),
      (∀ e ∈ LW, walkOK fuel R.data R.channels e = true) →
      (∀ e ∈ LW, e.1.vtype = R.vtype) →
      getAllLoop fuel R (LW.map (fun e => e.1)) z0 d0 lv0 m0 acc0 =
        .ok (LW.foldl (fun a e => aupdate a (e.1.line, e.1.point) e.2) acc0,
             LW.foldl (fun m e => min m (e.2.2.seg_offsets.getD 1 0)) m0,
             LW.foldl (fun _ e => some e.2.2) lv0) := by
  induction LW with
  | nil => intro z0 d0 lv0 m0 acc0 _ _; rfl
  | cons e rest ih =>
    intro z0 d0 lv0 m0 acc0 hw hvt
    obtain ⟨zc, dc, hzc, hdc, htr, hchz, hchd, hne, _⟩ := walkOK_elim (hw e (by simp))
    simp only [List.map_cons, List.foldl_cons]
    unfold getAllLoop
    rw [if_neg (not_not_intro (hvt e (by simp)))]
    simp only [Bind.bind, Except.bind, htr,
      allSelect_two R.channels e.2.1 e.2.2 z0 d0 lv0 hzc hdc hchz hchd hne]
    exact ih _ _ _ _ _ (fun x hx => hw x (by simp [hx])) (fun x hx => hvt x (by simp [hx]))

/-- Folding some of anything over a nonempty list is not none. -/
theorem foldl_some_isNone {α β : Type} (f : α → β) :
    ∀ (l : List α) (x0 : Option β), l ≠ [] →
      (l.foldl (fun _ e => some (f e)) x0).isNone = false := by
  intro l
  induction l with
  | nil => intro x0 h; exact absurd rfl h
  | cons a t ih =>
    intro x0 _
    cases t with
    | nil => rfl
    | cons b u => exact ih (some (f a)) (by simp)

/-- Updating an absent key then looking another key up is transparent. -/
theorem alookup_aupdate_other {κ α : Type} [DecidableEq κ] (k k2 : κ) (v : α)
    (hne : k2 ≠ k) :
    ∀ acc : List (κ × α), alookup (aupdate acc k v) k2 = alookup acc k2 := by
  intro acc
  induction acc with
  | nil =>
    unfold aupdate alookup
    rw [if_neg (fun hh => hne hh.symm)]
    rfl
  | cons e rest ih =>
    obtain ⟨ke, ve⟩ := e
    unfold aupdate
    by_cases hk : ke = k
    · rw [if_pos hk]
      unfold alookup
      by_cases hq : ke = k2
      · exact absurd (hq.symm.trans hk) hne
      · rw [if_neg hq, if_neg hq]
    · rw [if_neg hk]
      unfold alookup
      by_cases hq : ke = k2
      · rw [if_pos hq, if_pos hq]
      · rw [if_neg hq, if_neg hq]
        exact ih

theorem alookup_aupdate_self {κ α : Type} [DecidableEq κ] (k : κ) (v : α) :
    ∀ acc : List (κ × α), alookup (aupdate acc k v) k = some v := by
  intro acc
  induction acc with
  | nil =>
    unfold aupdate alookup
    rw [if_pos rfl]
  | cons e rest ih =>
    obtain ⟨ke, ve⟩ := e
    unfold aupdate
    by_cases hk : ke = k
    · rw [if_pos hk]
      unfold alookup
      rw [if_pos hk]
    · rw [if_neg hk]
      unfold alookup
      rw [if_neg hk]
      exact ih

/-- A dict-update fold over entries never keyed k is transparent at k. -/
theorem alookup_foldl_not_mem {κ α : Type} [DecidableEq κ] (k : κ) :
    ∀ (l acc : List (κ × α)), (¬ ∃ e ∈ l, e.1 = k) →
      alookup (l.foldl (fun a e => aupdate a e.1 e.2) acc) k = alookup acc k := by
  intro l
  induction l with
  | nil => intro acc _; rfl
  | cons e rest ih =>
    intro acc hn
    rw [List.foldl_cons]
    rw [ih _ (fun hh => hn (by
      obtain ⟨x, hx, hk⟩ := hh
      exact ⟨x, List.mem_cons_of_mem _ hx, hk⟩))]
    exact alookup_aupdate_other e.1 k e.2
      (fun hh => hn ⟨e, List.mem_cons_self _ _, hh.symm⟩) acc

/-- A dict-update fold resolves a key that occurs with a unique value. -/
theorem alookup_foldl_mem {κ α : Type} [DecidableEq κ] (k : κ) (v : α) :
    ∀ (l acc : List (κ × α)), (k, v) ∈ l → (∀ e ∈ l, e.1 = k → e.2 = v) →
      alookup (l.foldl (fun a e => aupdate a e.1 e.2) acc) k = some v := by
  intro l
  induction l with
  | nil => intro acc h _; exact absurd h (List.not_mem_nil _)
  | cons e rest ih =>
    intro acc hmem huniq
    rw [List.foldl_cons]
    by_cases hk : ∃ e2 ∈ rest, e2.1 = k
    · obtain ⟨e2, he2, hke2⟩ := hk
      have hv2 : e2.2 = v := huniq e2 (List.mem_cons_of_mem _ he2) hke2
      have hkv : (k, v) ∈ rest := by
        have he : e2 = (k, v) := by
          obtain ⟨a, b⟩ := e2
          dsimp only at hke2 hv2
          rw [hke2, hv2]
        rw [← he]
        exact he2
      exact ih _ hkv (fun x hx hxk => huniq x (List.mem_cons_of_mem _ hx) hxk)
    · have hev : e.1 = k ∧ e.2 = v := by
        rcases List.mem_cons.1 hmem with h | h
        · rw [← h]
          exact ⟨rfl, rfl⟩
        · exact absurd ⟨(k, v), h, rfl⟩ hk
      rw [alookup_foldl_not_mem k rest _ hk, hev.1, hev.2]
      exact alookup_aupdate_self k v acc

/-- A key-preserving map commutes with alookup. -/
theorem alookup_map_keyed {κ α β : Type} [DecidableEq κ] (g : κ × α → β) :
    ∀ (l : List (κ × α)) (k : κ) (v : α), alookup l k = some v →
      alookup (l.map (fun e => (e.1, g e))) k = some (g (k, v)) := by
  intro l
  induction l with
  | nil => intro k v h; exact Option.noConfusion h
  | cons e rest ih =>
    intro k v h
    obtain ⟨ke, ve⟩ := e
    rw [List.map_cons]
    unfold alookup at h ⊢
    dsimp only
    by_cases hk : ke = k
    · rw [if_pos hk] at h ⊢
      injection h with h2
      subst hk
      rw [h2]
    · rw [if_neg hk] at h ⊢
      exact ih k v h

/-- Entries of a dict-update fold come from the seed or the folded list. -/
theorem mem_aupdate {κ α : Type} [DecidableEq κ] :
    ∀ (acc : List (κ × α)) (k : κ) (v : α) (x : κ × α),
      x ∈ aupdate acc k v → x ∈ acc ∨ x = (k, v) := by
  intro acc
  induction acc with
  | nil =>
    intro k v x hx
    simp only [aupdate, List.mem_singleton] at hx
    right
    exact hx
  | cons e rest ih =>
    intro k v x hx
    obtain ⟨k2, v2⟩ := e
    unfold aupdate at hx
    by_cases hk : k2 = k
    · rw [if_pos hk] at hx
      rcases List.mem_cons.1 hx with h | h
      · right
        rw [h, hk]
      · left
        exact List.mem_cons_of_mem _ h
    · rw [if_neg hk] at hx
      rcases List.mem_cons.1 hx with h | h
      · left
        rw [h]
        exact List.mem_cons_self _ _
      · rcases ih k v x h with h2 | h2
        · left
          exact List.mem_cons_of_mem _ h2
        · right
          exact h2

theorem mem_foldl_aupdate {κ α : Type} [DecidableEq κ] :
    ∀ (l acc : List (κ × α)) (x : κ × α),
      x ∈ l.foldl (fun a e => aupdate a e.1 e.2) acc → x ∈ acc ∨ x ∈ l := by
  intro l
  induction l with
  | nil =>
    intro acc x hx
    left
    exact hx
  | cons e rest ih =>
    intro acc x hx
    rw [List.foldl_cons] at hx
    rcases ih _ x hx with h | h
    · rcases mem_aupdate acc e.1 e.2 x h with h2 | h2
      · left
        exact h2
      · right
        rw [h2]
        exact List.mem_cons_self _ _
    · right
      exact List.mem_cons_of_mem _ h

/-- A dict-update fold with explicit key and value functions is the plain
dict-update fold of the keyed image list. -/
theorem foldl_aupdate_keyed {κ α β : Type} [DecidableEq κ]
    (key : β → κ) (val : β → α) :
    ∀ (l : List β) (acc : List (κ × α)),
      l.foldl (fun a e => aupdate a (key e) (val e)) acc =
        (l.map (fun e => (key e, val e))).foldl (fun a e => aupdate a e.1 e.2) acc := by
  intro l
  induction l with
  | nil => intro acc; rfl
  | cons e rest ih =>
    intro acc
    rw [List.foldl_cons, List.map_cons, List.foldl_cons]
    exact ih _

theorem get_ndarray_length (v : ARDFVdata) (conv : Nat → Nat) :
    (v.get_ndarray conv).length = v.nfloats := by
  simp [ARDFVdata.get_ndarray]

/-- A Python slice in drop-then-take canonical form. -/
theorem pyslice_as_drop_take (d : List Nat) (a b : Nat) :
    pyslice d a b = (d.drop a).take (b - a) := by
  unfold pyslice
  rw [List.drop_take]

theorem slice_len (d : List Nat) (s1 minext : Nat)
    (h1 : minext ≤ s1) (h2 : s1 + minext ≤ d.length) :
    (pyslice d (s1 - minext) (2 * minext + (s1 - minext))).length = 2 * minext := by
  rw [pyslice_as_drop_take, List.length_take, List.length_drop]
  omega

/-- The first half of the centred window is the tail of the approach. -/
theorem slice_trim_take (d : List Nat) (s1 minext : Nat) (h1 : minext ≤ s1) :
    (pyslice d (s1 - minext) (2 * minext + (s1 - minext))).take minext
      = (d.take s1).drop (s1 - minext) := by
  rw [pyslice_as_drop_take, List.take_take, List.drop_take]
  have e1 : min minext (2 * minext + (s1 - minext) - (s1 - minext)) = minext := by omega
  have e2 : s1 - (s1 - minext) = minext := by omega
  rw [e1, e2]

/-- The second half of the centred window is the head of the retract. -/
theorem slice_trim_drop (d : List Nat) (s1 s2 minext : Nat)
    (h1 : minext ≤ s1) (h2 : s1 + minext ≤ s2) :
    (pyslice d (s1 - minext) (2 * minext + (s1 - minext))).drop minext
      = (pyslice d s1 s2).take minext := by
  rw [pyslice_as_drop_take, pyslice_as_drop_take, List.drop_take, List.drop_drop,
      List.take_take]
  have e1 : 2 * minext + (s1 - minext) - (s1 - minext) - minext = minext := by omega
  have e2 : s1 - minext + minext = s1 := by omega
  have e3 : min minext (s2 - s1) = minext := by omega
  rw [e1, e2, e3]

/-- The per-pixel materialization of the second loop of get_all_curves:
slice a centred window of minfloats samples out of each array (the window
position is set by the ZSnsr approach length) and split it in half. -/
def fillCurve (conv : Nat → Nat) (minext minfloats : Nat)
    (p : ARDFVdata × ARDFVdata) : Curve :=
  let halfextra := (p.1.seg_offsets.getD 1 0 * 2 - minfloats) / 2
  let zsl := pyslice (p.1.get_ndarray conv) halfextra (minfloats + halfextra)
  let dsl := pyslice (p.2.get_ndarray conv) halfextra (minfloats + halfextra)
  ((zsl.take minext, zsl.drop minext), (dsl.take minext, dsl.drop minext))

/-- Truth of the broadcast length check of the second loop for one array. -/
def sliceLenOK (conv : Nat → Nat) (minfloats : Nat) (zv w : ARDFVdata) : Prop :=
  (pyslice (w.get_ndarray conv) ((zv.seg_offsets.getD 1 0 * 2 - minfloats) / 2)
    (minfloats + (zv.seg_offsets.getD 1 0 * 2 - minfloats) / 2)).length = minfloats

/-- The second loop of get_all_curves materializes every pixel by
fillCurve when every pixel is in range and passes the broadcast check. -/
theorem fillLoop_spec (conv : Nat → Nat) (lines points minext minfloats : Nat) :
    ∀ vd : List (Index2 × (ARDFVdata × ARDFVdata)),
      (∀ e ∈ vd, (e.1.1 < lines ∧ e.1.2 < points) ∧
        sliceLenOK conv minfloats e.2.1 e.2.1 ∧ sliceLenOK conv minfloats e.2.1 e.2.2) →
      fillLoop conv lines points minext minfloats vd =
        .ok (vd.map (fun e => (e.1, fillCurve conv minext minfloats e.2))) := by
  intro vd
  induction vd with
  | nil => intro _; rfl
  | cons e rest ih =>
    intro hall
    obtain ⟨⟨r, c⟩, zv, dv⟩ := e
    obtain ⟨⟨hr, hc⟩, hz, hd⟩ := hall ((r, c), (zv, dv)) (by simp)
    unfold sliceLenOK at hz hd
    dsimp only at hr hc hz hd
    unfold fillLoop
    rw [if_neg (not_not_intro ⟨hr, hc⟩)]
    dsimp only
    rw [if_neg (by push_neg; exact ⟨hz, hd⟩)]
    simp only [Bind.bind, Except.bind, ih (fun x hx => hall x (by simp [hx]))]
    rfl

/-- Trimming a curve symmetrically around its split point: the last minext
samples of the approach and the first minext samples of the retract, on
both channels. -/
def trimCurve (minext : Nat) (cu : Curve) : Curve :=
  ((cu.1.1.drop (cu.1.1.length - minext), cu.1.2.take minext),
   (cu.2.1.drop (cu.2.1.length - minext), cu.2.2.take minext))

/-- The minimum approach length folded by the first loop of get_all_curves
over the Defl (last-walked) vdats. -/
def minextOf (LW : List (ARDFVset × ARDFVdata × ARDFVdata)) : Nat :=
  LW.foldl (fun m e => min m (e.2.2.seg_offsets.getD 1 0)) 0xFFFFFFFF

/-- A materialized pixel is exactly the symmetric trim of its get_curve
split pair, whenever the window fits. -/
theorem fillCurve_trim (conv : Nat → Nat) (minext : Nat) (zv dv : ARDFVdata)
    (hseg : zv.seg_offsets = dv.seg_offsets)
    (h1 : minext ≤ zv.seg_offsets.getD 1 0)
    (h2 : zv.seg_offsets.getD 1 0 + minext ≤ zv.seg_offsets.getD 2 0)
    (hznf : zv.seg_offsets.getD 1 0 ≤ zv.nfloats)
    (hdnf : zv.seg_offsets.getD 1 0 ≤ dv.nfloats) :
    fillCurve conv minext (2 * minext) (zv, dv) =
      trimCurve minext
        (pairOf (zv.get_ndarray conv) (zv.seg_offsets.getD 1 0)
          (zv.seg_offsets.getD 2 0),
         pairOf (dv.get_ndarray conv) (dv.seg_offsets.getD 1 0)
          (dv.seg_offsets.getD 2 0)) := by
  unfold fillCurve trimCurve pairOf
  dsimp only
  rw [← hseg]
  have hh : (zv.seg_offsets.getD 1 0 * 2 - 2 * minext) / 2
      = zv.seg_offsets.getD 1 0 - minext := by omega
  rw [hh]
  rw [List.length_take, List.length_take, get_ndarray_length, get_ndarray_length]
  have lz : min (zv.seg_offsets.getD 1 0) zv.nfloats - minext
      = zv.seg_offsets.getD 1 0 - minext := by omega
  have ld : min (zv.seg_offsets.getD 1 0) dv.nfloats - minext
      = zv.seg_offsets.getD 1 0 - minext := by omega
  rw [lz, ld]
  rw [slice_trim_take _ _ _ h1, slice_trim_drop _ _ _ _ h1 h2,
      slice_trim_take _ _ _ h1, slice_trim_drop _ _ _ _ h1 h2]

/-- Monadic bind of a successful Except computation. -/
theorem bind_ok_eq {α β γ : Type} (a : β) (f : β → Except α γ) :
    (Bind.bind (Except.ok a) f : Except α γ) = f a := rfl

/-- C4: get_all_curves finds the minimum approach-segment length over the
walked chain and materializes each pixel as the symmetric trim, around its
own split point, of the very curve get_curve returns for that pixel.  LW
pairs every chain vset with the two vdats of its walk; the hypotheses are
the per-volume well-formedness facts (two-vdat walks with a ZSnsr and a
Defl channel, in-range distinct pixels, the trimming window fits every
row) and the bisect-hit facts get_curve needs at the distinguished pixel
(r, c). -/
theorem get_all_curves_matches_get_curve
    (fuel : Nat) (conv : Nat → Nat) (R : ARDFForceMapReader)
    (LW : List (ARDFVset × ARDFVdata × ARDFVdata)) (cacheF cacheRow : VCache)
    (eV : ARDFVset × ARDFVdata × ARDFVdata) (r c : Nat)
    (hchain : traverseVsets R.data fuel [] (R.vtoc.pointers.getD 0 0) =
      .ok (LW.map (fun e => e.1), cacheF))
    (hvt : ∀ e ∈ LW, e.1.vtype = R.vtype)
    (hnodup : ((LW.map (fun e => e.1)).map (fun W => (W.line, W.point))).Nodup)
    (hwalks : ∀ e ∈ LW, walkOK fuel R.data R.channels e = true)
    (hraw : alookup R.channels RawName = none)
    (hbounds : ∀ e ∈ LW, e.1.line < R.lines ∧ e.1.point < R.points)
    (hmins : ∀ e ∈ LW, minextOf LW ≤ e.2.1.seg_offsets.getD 1 0 ∧
      e.2.1.seg_offsets.getD 1 0 + minextOf LW ≤ e.2.1.nfloats ∧
      e.2.1.seg_offsets.getD 1 0 + minextOf LW ≤ e.2.2.nfloats)
    (heV : eV ∈ LW) (hVl : eV.1.line = r) (hVp : eV.1.point = c)
    (hs2 : eV.2.1.seg_offsets.getD 1 0 + minextOf LW ≤ eV.2.1.seg_offsets.getD 2 0)
    (hr : r < R.lines) (hc : c < R.points)
    (hlen : bisectLeft (vtocView R).1 r < R.vtoc.lines.length)
    (hhit : (vtocView R).1.getD (bisectLeft (vtocView R).1 r) 0 = r)
    (hrow : traverseRowVsets R.data r fuel []
      ((vtocView R).2.getD (bisectLeft (vtocView R).1 r) 0) = .ok cacheRow)
    (hsub : ∀ kv ∈ cacheRow, kv.2 ∈ LW.map (fun e => e.1))
    (hfound : (alookup cacheRow (r, c, R.vtype)).isSome = true) :
    ∃ cu out,
      get_curve fuel conv R [] r c = .ok (cu, cacheRow) ∧
      get_all_curves fuel conv R [] = .ok (out, cacheF) ∧
      alookup out (r, c) = some (trimCurve (minextOf LW) cu) := by
  obtain ⟨zc, dc, hzc, hdc, htr, hchz, hchd, hne, hseg⟩ := walkOK_elim (hwalks eV heV)
  refine ⟨(pairOf (eV.2.1.get_ndarray conv) (eV.2.1.seg_offsets.getD 1 0)
        (eV.2.1.seg_offsets.getD 2 0),
      pairOf (eV.2.2.get_ndarray conv) (eV.2.2.seg_offsets.getD 1 0)
        (eV.2.2.seg_offsets.getD 2 0)),
    (LW.foldl (fun a e => aupdate a (e.1.line, e.1.point) e.2) []).map
      (fun e => (e.1, fillCurve conv (minextOf LW) (2 * minextOf LW) e.2)),
    ?_, ?_, ?_⟩
  · have hres := rowCache_resolves fuel R (LW.map (fun e => e.1)) cacheRow eV.1 r c
      ((vtocView R).2.getD (bisectLeft (vtocView R).1 r) 0)
      hnodup (List.mem_map_of_mem _ heV) hVl hVp hrow hsub hfound
    exact get_curve_resolved fuel conv R cacheRow eV.1 r c _ _ hr hc hlen hhit hrow hres
      (vsetScan_two fuel conv R eV.1 eV.2.1 eV.2.2 hraw hzc hdc htr hchz hchd hne)
  · have hLWne : LW ≠ [] := by
      intro hnil
      rw [hnil] at heV
      exact List.not_mem_nil _ heV
    have hfill : ∀ x ∈ LW.foldl (fun a e => aupdate a (e.1.line, e.1.point) e.2) [],
        (x.1.1 < R.lines ∧ x.1.2 < R.points) ∧
        sliceLenOK conv (2 * minextOf LW) x.2.1 x.2.1 ∧
        sliceLenOK conv (2 * minextOf LW) x.2.1 x.2.2 := by
      intro x hx
      rw [foldl_aupdate_keyed (fun e => (e.1.line, e.1.point)) (fun e => e.2) LW []] at hx
      rcases mem_foldl_aupdate _ [] x hx with h | h
      · exact absurd h (List.not_mem_nil _)
      · obtain ⟨e2, he2, hx2⟩ := List.mem_map.1 h
        rw [← hx2]
        dsimp only
        have hh : (e2.2.1.seg_offsets.getD 1 0 * 2 - 2 * minextOf LW) / 2
            = e2.2.1.seg_offsets.getD 1 0 - minextOf LW := by
          have := (hmins e2 he2).1
          omega
        refine ⟨hbounds e2 he2, ?_, ?_⟩
        · unfold sliceLenOK
          rw [hh]
          exact slice_len _ _ _ (hmins e2 he2).1
            (by rw [get_ndarray_length]; exact (hmins e2 he2).2.1)
        · unfold sliceLenOK
          rw [hh]
          exact slice_len _ _ _ (hmins e2 he2).1
            (by rw [get_ndarray_length]; exact (hmins e2 he2).2.2)
    unfold get_all_curves
    rw [hchain, bind_ok_eq]
    dsimp only
    rw [getAllLoop_spec fuel R LW none none none 0xFFFFFFFF [] hwalks hvt, bind_ok_eq]
    rw [if_neg (show ¬ LW.map (fun e => e.1) = [] by
      intro hh
      cases LW with
      | nil => exact hLWne rfl
      | cons a t => exact List.noConfusion hh)]
    rw [if_neg (show ¬ (LW.foldl (fun _ e => some e.2.2) none).isNone = true by
      rw [foldl_some_isNone (fun e => e.2.2) LW none hLWne]
      exact Bool.false_ne_true)]
    dsimp only
    rw [show LW.foldl (fun m e => min m (e.2.2.seg_offsets.getD 1 0)) 0xFFFFFFFF
        = minextOf LW from rfl]
    rw [fillLoop_spec conv R.lines R.points (minextOf LW) (2 * minextOf LW) _ hfill,
      bind_ok_eq]
    rfl
  · have hnd2 : (LW.map (fun e => (e.1.line, e.1.point))).Nodup := by
      rw [List.map_map] at hnodup
      exact hnodup
    have hvdl : alookup
        (LW.foldl (fun a e => aupdate a (e.1.line, e.1.point) e.2) []) (r, c)
        = some eV.2 := by
      rw [foldl_aupdate_keyed (fun e => (e.1.line, e.1.point)) (fun e => e.2) LW []]
      refine alookup_foldl_mem (r, c) eV.2 _ [] ?_ ?_
      · exact List.mem_map.2 ⟨eV, heV, by rw [hVl, hVp]⟩
      · intro x hx hk
        obtain ⟨e2, he2, hx2⟩ := List.mem_map.1 hx
        rw [← hx2] at hk ⊢
        dsimp only at hk ⊢
        have he2V : e2 = eV := List.inj_on_of_nodup_map hnd2 he2 heV (by
          show (e2.1.line, e2.1.point) = (eV.1.line, eV.1.point)
          rw [hk, hVl, hVp])
        rw [he2V]
    rw [alookup_map_keyed
      (fun e => fillCurve conv (minextOf LW) (2 * minextOf LW) e.2)
      (LW.foldl (fun a e => aupdate a (e.1.line, e.1.point) e.2) []) (r, c) eV.2 hvdl]
    show some (fillCurve conv (minextOf LW) (2 * minextOf LW) eV.2) = _
    rw [show (eV.2 : ARDFVdata × ARDFVdata) = (eV.2.1, eV.2.2) from rfl]
    rw [fillCurve_trim conv (minextOf LW) eV.2.1 eV.2.2 hseg (hmins eV heV).1 hs2
      (by have := (hmins eV heV).2.1; omega) (by have := (hmins eV heV).2.2; omega)]

/-- The full fmapData chain paired with the two vdats of each walk. -/
def chainLW : List (ARDFVset × ARDFVdata × ARDFVdata) :=
  [(⟨fmapData, 0, 48, 0, 0, 0, 2, 0, 208⟩,
    ⟨fmapData, 64, 56, 0, 0, 0, 4, 0, [0, 2, 4, 0, 0]⟩,
    ⟨fmapData, 136, 56, 0, 0, 0, 4, 1, [0, 2, 4, 0, 0]⟩),
   (⟨fmapData, 208, 48, 1, 0, 1, 2, 0, 416⟩,
    ⟨fmapData, 272, 56, 1, 0, 1, 4, 0, [0, 2, 4, 0, 0]⟩,
    ⟨fmapData, 344, 56, 1, 0, 1, 4, 1, [0, 2, 4, 0, 0]⟩),
   (⟨fmapData, 416, 48, 2, 1, 0, 2, 208, 640⟩,
    ⟨fmapData, 480, 56, 2, 1, 0, 6, 0, [0, 3, 6, 0, 0]⟩,
    ⟨fmapData, 560, 56, 2, 1, 0, 6, 1, [0, 3, 6, 0, 0]⟩),
   (⟨fmapData, 640, 48, 3, 1, 1, 2, 416, 864⟩,
    ⟨fmapData, 704, 56, 3, 1, 1, 6, 0, [0, 3, 6, 0, 0]⟩,
    ⟨fmapData, 784, 56, 3, 1, 1, 6, 1, [0, 3, 6, 0, 0]⟩)]

/-- The seen cache left by reading row 1 of fmapData. -/
def rowCache1W : VCache :=
  [((1, 0, 2), ⟨fmapData, 416, 48, 2, 1, 0, 2, 208, 640⟩),
   ((1, 1, 2), ⟨fmapData, 640, 48, 3, 1, 1, 2, 416, 864⟩)]

/-- Witness for C4 at pixel (1, 0) of the fmapData volume, whose row-1
curves are longer (split 3, length 6) than the global minimum approach
length 2 set by row 0. -/
theorem get_all_curves_matches_get_curve_witness :
    ∃ cu out,
      get_curve 99 id fmapR [] 1 0 = .ok (cu, rowCache1W) ∧
      get_all_curves 99 id fmapR [] = .ok (out, fullCacheW) ∧
      alookup out (1, 0) = some (trimCurve (minextOf chainLW) cu) :=
  get_all_curves_matches_get_curve 99 id fmapR chainLW fullCacheW rowCache1W
    (⟨fmapData, 416, 48, 2, 1, 0, 2, 208, 640⟩,
     ⟨fmapData, 480, 56, 2, 1, 0, 6, 0, [0, 3, 6, 0, 0]⟩,
     ⟨fmapData, 560, 56, 2, 1, 0, 6, 1, [0, 3, 6, 0, 0]⟩) 1 0
    (by decide) (by decide) (by decide) (by decide) (by decide) (by decide)
    (by decide) (by decide) (by decide) (by decide) (by decide) (by decide)
    (by decide) (by decide) (by decide) (by decide) (by decide) (by decide)

/-! ## C9: parse_volm and the shape field.

The VOLM region is a fixed chain: the VOLM chunk is a generic table of
contents whose last entry is NSET, then a text table of contents that is
stepped over, the VDEF chunk declaring points and lines, up to four VCHN
channel chunks, the XDEF experiment definition, the VTOC, a 16-byte MLOV
terminator and the first VSET.  parse_volm is embedded below; the float64
step fields are kept as their raw 8-byte words. -/

structure ARDFVolume where
  volm_offset : Nat
  reader : ARDFForceMapReader
  shape : Index2
  x_step : Nat
  y_step : Nat
  t_step : Nat
  x_units : Bytes
  y_units : Bytes
  t_units : Bytes
  xdef : ARDFXdef
deriving DecidableEq

/-- The implicit channel-table loop of parse_volm: for i in range(5), stop
at the first non-VCHN header and hand it back for the XDEF unpack; each
VCHN chunk is unpacked (tag, size and checksum checked), its unit asserted
to be m, and assigned into the channel dict under its name with the
running index; five VCHN chunks with no break hit the for-else
RuntimeError. -/
def volmChannels (data : Bytes) : Nat → Nat → Nat → ChanMap →
    Except ARDFError (ChanMap × ARDFHeader)
  | 0, _, _, _ => .error (.runtimeError "Got too many channels.")
  | n + 1, i, offset, channels =>
    let header := ARDFHeader.unpack data offset
    if header.name ≠ VCHNtag then .ok (channels, header)
    else do
      let vchn ← ARDFVchan.unpack header
      if vchn.unit ≠ meterUnit then .error (.assertFail "vchn.unit == m")
      else
        let channels2 := aupdate channels vchn.name (i, vchn)
        volmChannels data n (i + 1) (header.offset + header.size) channels2

/-- ARDFVolume.parse_volm: check the VOLM header, unpack the generic TOC
and validate its last (NSET) entry header, step over the text TOC, check
and decode the VDEF chunk (points u32, lines u32, an asserted-zero 24-byte
reserve, three float64 steps, four 32-byte cstrings and the u64 segment
count), walk the VCHN table, unpack XDEF, VTOC and the MLOV terminator,
unpack the first vset for its vtype, and build the volume record.  The
regular-spacing fast path is behind an `if 0 and ...` in the source and
therefore dead: the pointer-chase reader is always chosen.  The shape
field is built as (points, lines), the declared point count first. -/
def ARDFVolume.parse_volm (volm_header : ARDFHeader) : Except ARDFError ARDFVolume :=
  let data := volm_header.data
  if volm_header.size ≠ 32 ∨ volm_header.name ≠ VOLMtag then
    .error (.malformed "Malformed volume header." volm_header)
  else do
    let volm_toc ← ARDFTableOfContents.unpack volm_header
    match volm_toc.entries.getLast? with
    | none => .error .indexError
    | some (nset_header, _nsets) => do
      let _ ← nset_header.validate
      let ttoc_header := ARDFHeader.unpack data (volm_toc.offset + volm_toc.size)
      let ttoc ← ARDFTextTableOfContents.unpack ttoc_header
      let vdef_header := ARDFHeader.unpack data (ttoc.offset + ttoc.size)
      if vdef_header.name ≠ VDEFtag ∨ vdef_header.size ≠ 208 then
        .error (.malformed "Malformed volume definition." vdef_header)
      else do
        let _ ← vdef_header.validate
        let points := readU32 data (vdef_header.offset + 16)
        let lines := readU32 data (vdef_header.offset + 20)
        let reserved := readBytes data (vdef_header.offset + 24) 24
        let x_step := readU64 data (vdef_header.offset + 48)
        let y_step := readU64 data (vdef_header.offset + 56)
        let t_step := readU64 data (vdef_header.offset + 64)
        let x_units := stripNulls (readBytes data (vdef_header.offset + 72) 32)
        let y_units := stripNulls (readBytes data (vdef_header.offset + 104) 32)
        let t_units := stripNulls (readBytes data (vdef_header.offset + 136) 32)
        let seg_str := stripNulls (readBytes data (vdef_header.offset + 168) 32)
        let nseg := readU64 data (vdef_header.offset + 200)
        if reserved.foldl (fun a b => a + b) 0 ≠ 0 then
          .error (.assertFail "sum(reserved) == 0")
        else if nseg ≠ ((splitSemi seg_str).dropLast).length then
          .error (.assertFail "nseg == len(seg_names)")
        else do
          let (channels, xdef_header) ←
            volmChannels data 5 0 (vdef_header.offset + vdef_header.size) []
          let xdef ← ARDFXdef.unpack xdef_header
          let vtoc_header := ARDFHeader.unpack data (xdef.offset + xdef.size)
          let vtoc ← ARDFVolumeTableOfContents.unpack vtoc_header
          let mlov_header := ARDFHeader.unpack data (vtoc.offset + vtoc.size)
          if mlov_header.size ≠ 16 ∨ mlov_header.name ≠ MLOVtag then
            .error (.malformed "Malformed volume table of contents." mlov_header)
          else do
            let _ ← mlov_header.validate
            match vtoc.pointers with
            | [] => .error .indexError
            | p0 :: _ => do
              let first_vset ← ARDFVset.unpack (ARDFHeader.unpack data p0)
              .ok ⟨volm_header.offset,
                   ⟨data, vtoc, lines, points, first_vset.vtype, channels⟩,
                   (points, lines), x_step, y_step, t_step,
                   x_units, y_units, t_units, xdef⟩

/-- A complete single-volume VOLM region: VOLM TOC (one NSET entry) at 0,
empty TTOC at 56, VDEF at 88 declaring points = 2 and lines = 3, VCHN
chunks for ZSnsr and Defl (unit m) at 296 and 376, XDEF at 456, VTOC with
one VOFF entry at 552 pointing at 640, MLOV at 624, and the first VSET
(vtype 2) at 640.  All checksums are valid. -/
def volmDemo : Bytes := [14, 49, 31, 132, 32, 0, 0, 0, 86, 79, 76, 77, 0, 0, 0, 0, 56, 0, 0, 0, 0, 0, 0, 0, 1, 0, 0, 0, 24, 0, 0, 0, 229, 172, 83, 35, 24, 0, 0, 0, 78, 83, 69, 84, 0, 0, 0, 0, 1, 0, 0, 0, 0, 0, 0, 0, 167, 209, 188, 172, 32, 0, 0, 0, 84, 84, 79, 67, 0, 0, 0, 0, 32, 0, 0, 0, 0, 0, 0, 0, 0, 0, 0, 0, 32, 0, 0, 0, 238, 58, 89, 2, 208, 0, 0, 0, 86, 68, 69, 70, 0, 0, 0, 0, 2, 0, 0, 0, 3, 0, 0, 0, 0, 0, 0, 0, 0, 0, 0, 0, 0, 0, 0, 0, 0, 0, 0, 0, 0, 0, 0, 0, 0, 0, 0, 0, 0, 0, 0, 0, 0, 0, 0, 0, 0, 0, 0, 0, 0, 0, 0, 0, 0, 0, 0, 0, 0, 0, 0, 0, 109, 0, 0, 0, 0, 0, 0, 0, 0, 0, 0, 0, 0, 0, 0, 0, 0, 0, 0, 0, 0, 0, 0, 0, 0, 0, 0, 0, 0, 0, 0, 0, 109, 0, 0, 0, 0, 0, 0, 0, 0, 0, 0, 0, 0, 0, 0, 0, 0, 0, 0, 0, 0, 0, 0, 0, 0, 0, 0, 0, 0, 0, 0, 0, 115, 0, 0, 0, 0, 0, 0, 0, 0, 0, 0, 0, 0, 0, 0, 0, 0, 0, 0, 0, 0, 0, 0, 0, 0, 0, 0, 0, 0, 0, 0, 0, 101, 120, 116, 59, 114, 101, 116, 59, 0, 0, 0, 0, 0, 0, 0, 0, 0, 0, 0, 0, 0, 0, 0, 0, 0, 0, 0, 0, 0, 0, 0, 0, 2, 0, 0, 0, 0, 0, 0, 0, 218, 251, 179, 209, 80, 0, 0, 0, 86, 67, 72, 78, 0, 0, 0, 0, 90, 83, 110, 115, 114, 0, 0, 0, 0, 0, 0, 0, 0, 0, 0, 0, 0, 0, 0, 0, 0, 0, 0, 0, 0, 0, 0, 0, 0, 0, 0, 0, 109, 0, 0, 0, 0, 0, 0, 0, 0, 0, 0, 0, 0, 0, 0, 0, 0, 0, 0, 0, 0, 0, 0, 0, 0, 0, 0, 0, 0, 0, 0, 0, 94, 92, 73, 160, 80, 0, 0, 0, 86, 67, 72, 78, 0, 0, 0, 0, 68, 101, 102, 108, 0, 0, 0, 0, 0, 0, 0, 0, 0, 0, 0, 0, 0, 0, 0, 0, 0, 0, 0, 0, 0, 0, 0, 0, 0, 0, 0, 0, 109, 0, 0, 0, 0, 0, 0, 0, 0, 0, 0, 0, 0, 0, 0, 0, 0, 0, 0, 0, 0, 0, 0, 0, 0, 0, 0, 0, 0, 0, 0, 0, 147, 65, 2, 6, 96, 0, 0, 0, 88, 68, 69, 70, 0, 0, 0, 0, 0, 0, 0, 0, 8, 0, 0, 0, 101, 120, 116, 59, 114, 101, 116, 59, 0, 0, 0, 0, 0, 0, 0, 0, 0, 0, 0, 0, 0, 0, 0, 0, 0, 0, 0, 0, 0, 0, 0, 0, 0, 0, 0, 0, 0, 0, 0, 0, 0, 0, 0, 0, 0, 0, 0, 0, 0, 0, 0, 0, 0, 0, 0, 0, 0, 0, 0, 0, 0, 0, 0, 0, 0, 0, 0, 0, 0, 0, 0, 0, 17, 39, 203, 54, 32, 0, 0, 0, 86, 84, 79, 67, 0, 0, 0, 0, 72, 0, 0, 0, 0, 0, 0, 0, 1, 0, 0, 0, 40, 0, 0, 0, 201, 33, 241, 192, 40, 0, 0, 0, 86, 79, 70, 70, 0, 0, 0, 0, 0, 0, 0, 0, 0, 0, 0, 0, 0, 0, 0, 0, 0, 0, 0, 0, 128, 2, 0, 0, 0, 0, 0, 0, 112, 97, 163, 15, 16, 0, 0, 0, 77, 76, 79, 86, 0, 0, 0, 0, 188, 84, 50, 27, 48, 0, 0, 0, 86, 83, 69, 84, 0, 0, 0, 0, 0, 0, 0, 0, 0, 0, 0, 0, 0, 0, 0, 0, 2, 0, 0, 0, 0, 0, 0, 0, 0, 0, 0, 0, 0, 0, 0, 0, 0, 0, 0, 0]

/-- C9 counterexample: volmDemo declares points = 2 (at VDEF offset + 16)
and lines = 3 (at VDEF offset + 20), parse_volm succeeds, and the shape
field of the parsed volume is (points, lines) = (2, 3): the point count
comes first, not the line count as claimed. -/
theorem parse_volm_shape_cx :
    readU32 volmDemo (88 + 16) = 2 ∧
    readU32 volmDemo (88 + 20) = 3 ∧
    (ARDFVolume.parse_volm (ARDFHeader.unpack volmDemo 0)).toOption.map
      (fun v => v.shape) = some (2, 3) ∧
    ((2, 3) : Index2) ≠ ((3, 2) : Index2) := by
  refine ⟨by decide, by decide, by decide, by decide⟩

/-- C9 amended: every successfully parsed volume carries its grid shape as
(points, lines), the same two VDEF-declared counts the chosen reader
receives as reader.points and reader.lines. -/
theorem parse_volm_shape (volm_header : ARDFHeader) (vol : ARDFVolume)
    (h : ARDFVolume.parse_volm volm_header = .ok vol) :
    vol.shape = (vol.reader.points, vol.reader.lines) := by
  unfold ARDFVolume.parse_volm at h
  try dsimp only at h
  split at h
  · exact Except.noConfusion h
  · rcases except_bind_ok h with ⟨volm_toc, _, h⟩
    try dsimp only at h
    split at h
    · exact Except.noConfusion h
    · rcases except_bind_ok h with ⟨_, _, h⟩
      rcases except_bind_ok h with ⟨ttoc, _, h⟩
      try dsimp only at h
      split at h
      · exact Except.noConfusion h
      · rcases except_bind_ok h with ⟨_, _, h⟩
        try dsimp only at h
        split at h
        · exact Except.noConfusion h
        · split at h
          · exact Except.noConfusion h
          · rcases except_bind_ok h with ⟨cx, _, h⟩
            obtain ⟨channels, xdef_header⟩ := cx
            try dsimp only at h
            rcases except_bind_ok h with ⟨xdef, _, h⟩
            try dsimp only at h
            rcases except_bind_ok h with ⟨vtoc, _, h⟩
            try dsimp only at h
            split at h
            · exact Except.noConfusion h
            · rcases except_bind_ok h with ⟨_, _, h⟩
              try dsimp only at h
              split at h
              · exact Except.noConfusion h
              · rcases except_bind_ok h with ⟨first_vset, _, h⟩
                injection h with h2
                rw [← h2]

/-- Witness for the amended C9 theorem on the concrete volmDemo volume. -/
theorem parse_volm_shape_witness :
    ∃ vol, ARDFVolume.parse_volm (ARDFHeader.unpack volmDemo 0) = .ok vol ∧
      vol.shape = (vol.reader.points, vol.reader.lines) := by
  have hsome : (ARDFVolume.parse_volm (ARDFHeader.unpack volmDemo 0)).toOption.isSome
      = true := by decide
  cases hp : ARDFVolume.parse_volm (ARDFHeader.unpack volmDemo 0) with
  | error e => rw [hp] at hsome; simp [Except.toOption] at hsome
  | ok vol => exact ⟨vol, rfl, parse_volm_shape _ vol hp⟩

/-! ## C6: the CACHED_OPEN_PATHS resource cache.

The cache maps a path to (mm, worker, path_lock).  ARDFFile.__setstate__
either finds the entry and releases the lock (a RuntimeError from
releasing an unlocked lock is swallowed), or parses the file, stores the
entry with the lock acquired, and starts a watcher thread running
eventually_evict_path: the watcher repeats lock.acquire(timeout=10.0), so
each release renews a fresh 10-unit countdown, and when a full timeout
passes with no release it deletes the cache entry.  The timed transition
system below embeds this protocol for one fixed path: setstate is one
__setstate__ call (pid numbers the parse side effects and doubles as the
handle identity), and elapse dt is dt time units passing with no
intervening __setstate__, applying the watcher eviction when the last
renewal is at least the timeout ago. -/

structure PathEntry where
  pid : Nat
  renewedAt : Nat
deriving DecidableEq

structure CacheState where
  clock : Nat
  parses : Nat
  entry : Option PathEntry
deriving DecidableEq

/-- The watcher acquire timeout of eventually_evict_path. -/
def EVICT_TIMEOUT : Nat := 10

/-- One __setstate__ call: on a cache miss, parse (bumping the parse
counter, whose value is the new handle identity) and store the entry with
the freshly acquired lock; on a hit, release the lock to renew the watcher
countdown, swallowing the double-release error, and reuse the cached
handle. -/
def setstate (s : CacheState) : CacheState × Nat :=
  match s.entry with
  | none =>
    let pid := s.parses + 1
    ({ clock := s.clock, parses := pid, entry := some ⟨pid, s.clock⟩ }, pid)
  | some e => ({ s with entry := some ⟨e.pid, s.clock⟩ }, e.pid)

/-- dt time units pass with no __setstate__ call: the watcher evicts the
entry exactly when a full acquire timeout has elapsed since the last
renewal. -/
def elapse (s : CacheState) (dt : Nat) : CacheState :=
  match s.entry with
  | some e =>
    if e.renewedAt + EVICT_TIMEOUT ≤ s.clock + dt then
      { clock := s.clock + dt, parses := s.parses, entry := none }
    else { s with clock := s.clock + dt }
  | none => { s with clock := s.clock + dt }

/-- C6: from a cold cache, the first acquire parses; any later acquires
within the eviction window return the same handle without re-parsing
(including an immediate double acquire, whose double release is swallowed
rather than an error, and chained renewals that each restart the window);
once a full window passes with no acquire the watcher evicts the entry,
and the next acquire re-parses from scratch, yielding a fresh handle. -/
theorem cache_eviction_spec (s0 : CacheState) (dt dt2 dtE : Nat)
    (h0 : s0.entry = none) :
    ((setstate s0).2 = s0.parses + 1 ∧ (setstate s0).1.parses = s0.parses + 1) ∧
    (dt < EVICT_TIMEOUT →
      (setstate (elapse (setstate s0).1 dt)).2 = (setstate s0).2 ∧
      (setstate (elapse (setstate s0).1 dt)).1.parses = (setstate s0).1.parses) ∧
    (dt < EVICT_TIMEOUT → dt2 < EVICT_TIMEOUT →
      (setstate (elapse (setstate (elapse (setstate s0).1 dt)).1 dt2)).2
        = (setstate s0).2) ∧
    ((setstate (setstate s0).1).2 = (setstate s0).2 ∧
      (setstate (setstate s0).1).1.parses = (setstate s0).1.parses) ∧
    (EVICT_TIMEOUT ≤ dtE → (elapse (setstate s0).1 dtE).entry = none) ∧
    (EVICT_TIMEOUT ≤ dtE →
      (setstate (elapse (setstate s0).1 dtE)).1.parses = s0.parses + 2 ∧
      (setstate (elapse (setstate s0).1 dtE)).2 ≠ (setstate s0).2) := by
  obtain ⟨ck, ps, en⟩ := s0
  dsimp only at h0
  subst h0
  refine ⟨⟨rfl, rfl⟩, ?_, ?_, ⟨rfl, rfl⟩, ?_, ?_⟩
  · intro hdt
    simp only [setstate, elapse]
    rw [if_neg (show ¬ ck + EVICT_TIMEOUT ≤ ck + dt from
      fun hh => (Nat.not_le.2 hdt) (Nat.le_of_add_le_add_left hh))]
    exact ⟨rfl, rfl⟩
  · intro hdt hdt2
    simp only [setstate, elapse]
    rw [if_neg (show ¬ ck + EVICT_TIMEOUT ≤ ck + dt from
      fun hh => (Nat.not_le.2 hdt) (Nat.le_of_add_le_add_left hh))]
    simp only []
    rw [if_neg (show ¬ ck + dt + EVICT_TIMEOUT ≤ ck + dt + dt2 from
      fun hh => (Nat.not_le.2 hdt2) (Nat.le_of_add_le_add_left hh))]
  · intro hdt
    simp only [setstate, elapse]
    rw [if_pos (Nat.add_le_add_left hdt ck)]
  · intro hdt
    simp only [setstate, elapse]
    rw [if_pos (Nat.add_le_add_left hdt ck)]
    exact ⟨rfl, show ps + 1 + 1 ≠ ps + 1 by omega⟩

/-- Witness for C6 from the empty cache with renewals after 3 and 5 units
and an unattended gap of 12 units. -/
theorem cache_eviction_spec_witness :
    ((setstate ⟨0, 0, none⟩).2 = 0 + 1 ∧ (setstate ⟨0, 0, none⟩).1.parses = 0 + 1) ∧
    (3 < EVICT_TIMEOUT →
      (setstate (elapse (setstate ⟨0, 0, none⟩).1 3)).2 = (setstate ⟨0, 0, none⟩).2 ∧
      (setstate (elapse (setstate ⟨0, 0, none⟩).1 3)).1.parses
        = (setstate ⟨0, 0, none⟩).1.parses) ∧
    (3 < EVICT_TIMEOUT → 5 < EVICT_TIMEOUT →
      (setstate (elapse (setstate (elapse (setstate ⟨0, 0, none⟩).1 3)).1 5)).2
        = (setstate ⟨0, 0, none⟩).2) ∧
    ((setstate (setstate ⟨0, 0, none⟩).1).2 = (setstate ⟨0, 0, none⟩).2 ∧
      (setstate (setstate ⟨0, 0, none⟩).1).1.parses
        = (setstate ⟨0, 0, none⟩).1.parses) ∧
    (EVICT_TIMEOUT ≤ 12 → (elapse (setstate ⟨0, 0, none⟩).1 12).entry = none) ∧
    (EVICT_TIMEOUT ≤ 12 →
      (setstate (elapse (setstate ⟨0, 0, none⟩).1 12)).1.parses = 0 + 2 ∧
      (setstate (elapse (setstate ⟨0, 0, none⟩).1 12)).2
        ≠ (setstate ⟨0, 0, none⟩).2) :=
  cache_eviction_spec ⟨0, 0, none⟩ 3 5 12 rfl

end MagicAFM
